import Mathlib

/-!
Verification of the email auto-forwarding audit system (CIDM6330 repository).

The development shallowly embeds the repository layers of the Python sources:

* Assignment 3 repository.py : in-memory, CSV (flat-file) and SQLModel
  backends for forwarding rules and forwarding filters;
* Assignment 5 forwarding_rules/repository.py together with
  Final/forwarding_rules/models.py : the Django backend (AutoForwarding has a
  unique email; ForwardingFilter.forwarding is a OneToOneField with
  on_delete CASCADE);
* Final/sample_data_import.py : the bulk importer store_autoforwarding_data;
* Final/forwarding_rules/tasks.py : the report generators.

States are explicit records of lists; fallible operations return Except or
pair the new state with the Python return value.
-/

set_option maxHeartbeats 1000000

/-- ASCII lower-casing of one character, modelling Python str.lower on the
ASCII range used by the repository's email strings. -/
def lowerChar (c : Char) : Char :=
  if 65 ≤ c.toNat && c.toNat ≤ 90 then Char.ofNat (c.toNat + 32) else c

/-- ASCII lower-casing of a string, modelling Python str.lower. -/
def lowerStr (s : String) : String :=
  ⟨s.data.map lowerChar⟩

/-- Does the character list start with the given needle? -/
def startsWithCh : List Char → List Char → Bool
  | _, [] => true
  | [], _ :: _ => false
  | a :: as, b :: bs => a == b && startsWithCh as bs

/-- Substring test on character lists: models the Python expression
needle in haystack. The first argument is the haystack. -/
def hasSub : List Char → List Char → Bool
  | [], needle => needle.isEmpty
  | a :: as, needle => startsWithCh (a :: as) needle || hasSub as needle

/-- Case-insensitive substring test: models
needle.lower() in haystack.lower() from the search implementations. -/
def containsCI (haystack needle : String) : Bool :=
  hasSub (lowerStr haystack).data (lowerStr needle).data

/-- The scalar fields of a forwarding rule without its identifier; models
AutoForwardingBase from Assignment 3 models and the rule_data dict built by
the importer and the Django create_rule. -/
structure RuleBase where
  email : String
  name : String
  forwarding_email : Option String
  disposition : Option String
  has_forwarding_filters : Bool
  error : Option String
  investigation_note : Option String
deriving Repr, DecidableEq

/-- A stored forwarding rule: the scalar fields plus the backend-assigned
identifier; models AutoForwarding. -/
structure Rule where
  id : Nat
  email : String
  name : String
  forwarding_email : Option String
  disposition : Option String
  has_forwarding_filters : Bool
  error : Option String
  investigation_note : Option String
deriving Repr, DecidableEq

/-- Attach an identifier to the scalar fields of a rule. -/
def RuleBase.withId (rb : RuleBase) (i : Nat) : Rule :=
  { id := i
    email := rb.email
    name := rb.name
    forwarding_email := rb.forwarding_email
    disposition := rb.disposition
    has_forwarding_filters := rb.has_forwarding_filters
    error := rb.error
    investigation_note := rb.investigation_note }

/-- Overwrite every scalar field of a stored rule with the given values,
keeping the identifier; models update_rule applied to the full rule_data
dict (setattr for each of the seven scalar keys). -/
def applyRuleData (rb : RuleBase) (r : Rule) : Rule :=
  { r with
    email := rb.email
    name := rb.name
    forwarding_email := rb.forwarding_email
    disposition := rb.disposition
    has_forwarding_filters := rb.has_forwarding_filters
    error := rb.error
    investigation_note := rb.investigation_note }

/-- Set only the derived flag of a stored rule; models update_rule applied
to the single-key dict used by the importer and the Django filter
repository flag synchronization. -/
def setFlag (b : Bool) (r : Rule) : Rule :=
  { r with has_forwarding_filters := b }

/-- The errors the repository layer can signal. valueError models the
Python ValueError raised for a missing owning rule; integrityError models a
database IntegrityError (unique email, one-to-one filter constraint). -/
inductive RepoError where
  | valueError
  | integrityError
deriving Repr, DecidableEq

instance {ε α : Type} [DecidableEq ε] [DecidableEq α] : DecidableEq (Except ε α) := fun a b =>
  match a, b with
  | .error e, .error f =>
      match decEq e f with
      | isTrue h => isTrue (h ▸ rfl)
      | isFalse h => isFalse (fun hh => h (Except.error.inj hh))
  | .ok x, .ok y =>
      match decEq x y with
      | isTrue h => isTrue (h ▸ rfl)
      | isFalse h => isFalse (fun hh => h (Except.ok.inj hh))
  | .error _, .ok _ => isFalse (fun hh => Except.noConfusion hh)
  | .ok _, .error _ => isFalse (fun hh => Except.noConfusion hh)

namespace A3

/-- Assignment 3 forwarding filter (fields of ForwardingFilterBase plus
identifier): owning rule id, email_address payload, optional timestamp. -/
structure Filter3 where
  id : Nat
  forwarding_id : Nat
  email_address : String
  created_at : Option String
deriving Repr, DecidableEq

/-- Assignment 3 filter creation payload (ForwardingFilterBase). -/
structure Filter3Base where
  forwarding_id : Nat
  email_address : String
  created_at : Option String
deriving Repr, DecidableEq

/-- Attach an identifier to a filter payload. -/
def Filter3Base.withId (fb : Filter3Base) (i : Nat) : Filter3 :=
  { id := i
    forwarding_id := fb.forwarding_id
    email_address := fb.email_address
    created_at := fb.created_at }

end A3

namespace Mem

/-- Combined state of InMemoryAutoForwardingRepository and
InMemoryForwardingFilterRepository as wired by create_repositories
(the rule repository holds a reference to the filter repository). -/
structure State where
  rules : List Rule
  next_rule_id : Nat
  filters : List A3.Filter3
  next_filter_id : Nat
deriving Repr, DecidableEq

/-- InMemoryAutoForwardingRepository.create_rule: append with the next id;
there is no duplicate-email check. -/
def create_rule (st : State) (rb : RuleBase) : State × Rule :=
  let r := rb.withId st.next_rule_id
  ({ st with rules := st.rules ++ [r], next_rule_id := st.next_rule_id + 1 }, r)

/-- InMemoryAutoForwardingRepository.get_rule_by_id: first rule with the id. -/
def get_rule_by_id (st : State) (rid : Nat) : Option Rule :=
  st.rules.find? (fun r => r.id == rid)

/-- InMemoryForwardingFilterRepository.create_filter: append with the next
id; no owning-rule check, no replacement, and the rules are untouched. -/
def create_filter (st : State) (fb : A3.Filter3Base) : State × A3.Filter3 :=
  let f := fb.withId st.next_filter_id
  ({ st with filters := st.filters ++ [f], next_filter_id := st.next_filter_id + 1 }, f)

/-- InMemoryForwardingFilterRepository.get_filters_for_rule. -/
def get_filters_for_rule (st : State) (rid : Nat) : List A3.Filter3 :=
  st.filters.filter (fun f => f.forwarding_id == rid)

/-- InMemoryForwardingFilterRepository.delete_filters_for_rule: drop every
filter owned by the rule; the rules (and their flags) are untouched. -/
def delete_filters_for_rule (st : State) (rid : Nat) : State × Bool :=
  let kept := st.filters.filter (fun f => !(f.forwarding_id == rid))
  ({ st with filters := kept }, kept.length < st.filters.length)

/-- InMemoryAutoForwardingRepository.delete_rule: drop the rule and, when a
rule was removed, also delete its filters through the attached filter
repository (the factory sets rule_repo.filter_repo). -/
def delete_rule (st : State) (rid : Nat) : State × Bool :=
  let kept := st.rules.filter (fun r => !(r.id == rid))
  if kept.length < st.rules.length then
    let st1 : State := { st with rules := kept }
    let st2 := (delete_filters_for_rule st1 rid).1
    (st2, true)
  else
    (st, false)

/-- InMemoryAutoForwardingRepository.search_rules: case-insensitive
substring match on email (skipped for a falsy argument) and exact match on
the derived flag. -/
def search_rules (st : State) (email : Option String) (has_filters : Option Bool) :
    List Rule :=
  st.rules.filter (fun r =>
    (match email with
     | none => true
     | some e => if e = "" then true else containsCI r.email e)
    &&
    (match has_filters with
     | none => true
     | some b => r.has_forwarding_filters == b))

end Mem

namespace Sql

/-- Combined state of SQLModelAutoForwardingRepository and
SQLModelForwardingFilterRepository over one SQLite database. -/
structure State where
  rules : List Rule
  next_rule_id : Nat
  filters : List A3.Filter3
  next_filter_id : Nat
deriving Repr, DecidableEq

/-- SQLModelForwardingFilterRepository.create_filter: a plain insert. The
owning rule is not looked up and SQLite does not enforce the foreign key
here, so the row is persisted even for an unknown rule id. -/
def create_filter (st : State) (fb : A3.Filter3Base) : State × A3.Filter3 :=
  let f := fb.withId st.next_filter_id
  ({ st with filters := st.filters ++ [f], next_filter_id := st.next_filter_id + 1 }, f)

/-- SQLModelAutoForwardingRepository.create_rule: session add and commit.
The unique index on the email column (Field unique=True on
AutoForwardingBase.email) makes SQLite reject a duplicate email with an
IntegrityError, persisting nothing; otherwise the row is inserted with
the auto-assigned primary key. -/
def create_rule (st : State) (rb : RuleBase) : Except RepoError (State × Rule) :=
  if st.rules.any (fun r => r.email == rb.email) then
    .error .integrityError
  else
    let r := rb.withId st.next_rule_id
    .ok ({ st with rules := st.rules ++ [r], next_rule_id := st.next_rule_id + 1 }, r)

/-- SQLModelForwardingFilterRepository.get_filters_for_rule. -/
def get_filters_for_rule (st : State) (rid : Nat) : List A3.Filter3 :=
  st.filters.filter (fun f => f.forwarding_id == rid)

/-- SQLModelAutoForwardingRepository.delete_rule: delete only the rule row;
the filter table is not touched. -/
def delete_rule (st : State) (rid : Nat) : State × Bool :=
  match st.rules.find? (fun r => r.id == rid) with
  | none => (st, false)
  | some _ =>
      ({ st with rules := st.rules.filter (fun r => !(r.id == rid)) }, true)

end Sql

/-- The decimal digit character for a digit value below ten. -/
def digitCh (d : Nat) : Char :=
  Char.ofNat (48 + d)

/-- Little-endian decimal digits of a number, with explicit fuel so the
recursion is structural (the fuel never runs out when it starts at the
number itself). -/
def decDigitsGo : Nat → Nat → List Char
  | _, 0 => []
  | 0, _ + 1 => []
  | fuel + 1, m + 1 => digitCh ((m + 1) % 10) :: decDigitsGo fuel ((m + 1) / 10)

/-- Decimal rendering of a natural number; models Python str on the ints
the CSV writer serializes. -/
def natToDec (n : Nat) : String :=
  if n = 0 then "0" else ⟨(decDigitsGo n n).reverse⟩

/-- ASCII decimal digit test. -/
def isDigitCh (c : Char) : Bool :=
  48 ≤ c.toNat && c.toNat ≤ 57

/-- Parse a decimal string; models Python int applied to a CSV cell (a
malformed cell, which would raise in Python, is modelled as none). -/
def decToNat? (s : String) : Option Nat :=
  if !s.data.isEmpty && s.data.all isDigitCh then
    some (s.data.foldl (fun a c => a * 10 + (c.toNat - 48)) 0)
  else none

namespace Csv

/-- One line of the autoforwarding_rules.csv file: every cell is a string,
exactly as csv.DictWriter stores it (None becomes the empty cell). -/
structure Row where
  id : String
  email : String
  name : String
  forwarding_email : String
  disposition : String
  has_forwarding_filters : String
  error : String
  investigation_note : String
deriving Repr, DecidableEq

/-- A rule dict as load_rules of CSVAutoForwardingRepository produces it:
the id cell re-parsed as an int (None for an empty cell), the flag cell
compared case-insensitively against the word true, every other cell kept
as the raw string. -/
structure Parsed where
  id : Option Nat
  email : String
  name : String
  forwarding_email : String
  disposition : String
  has_forwarding_filters : Bool
  error : String
  investigation_note : String
deriving Repr, DecidableEq

/-- load_rules applied to one row. -/
def parseRow (row : Row) : Parsed :=
  { id := if row.id = "" then none else decToNat? row.id
    email := row.email
    name := row.name
    forwarding_email := row.forwarding_email
    disposition := row.disposition
    has_forwarding_filters := lowerStr row.has_forwarding_filters == "true"
    error := row.error
    investigation_note := row.investigation_note }

/-- save_rules applied to one loaded dict: csv.DictWriter writes ints in
decimal, None as the empty cell and bools as True or False. -/
def saveRow (p : Parsed) : Row :=
  { id := match p.id with | none => "" | some n => natToDec n
    email := p.email
    name := p.name
    forwarding_email := p.forwarding_email
    disposition := p.disposition
    has_forwarding_filters := if p.has_forwarding_filters then "True" else "False"
    error := p.error
    investigation_note := p.investigation_note }

/-- The cell csv.DictWriter writes for an optional string value. -/
def optCell : Option String → String
  | none => ""
  | some s => s

/-- save_rules applied to the freshly appended rule dict of create_rule
(whose values still carry the Python types of AutoForwardingBase). -/
def newRow (i : Nat) (rb : RuleBase) : Row :=
  { id := natToDec i
    email := rb.email
    name := rb.name
    forwarding_email := optCell rb.forwarding_email
    disposition := optCell rb.disposition
    has_forwarding_filters := if rb.has_forwarding_filters then "True" else "False"
    error := optCell rb.error
    investigation_note := optCell rb.investigation_note }

/-- One line of the forwarding_filters.csv file. -/
structure FRow where
  id : String
  forwarding_id : String
  email_address : String
  created_at : String
deriving Repr, DecidableEq

/-- A filter dict as load_filters produces it. -/
structure FParsed where
  id : Option Nat
  forwarding_id : Option Nat
  email_address : String
  created_at : String
deriving Repr, DecidableEq

/-- load_filters applied to one row. -/
def parseFRow (row : FRow) : FParsed :=
  { id := if row.id = "" then none else decToNat? row.id
    forwarding_id := if row.forwarding_id = "" then none else decToNat? row.forwarding_id
    email_address := row.email_address
    created_at := row.created_at }

/-- save_filters applied to one loaded dict. -/
def saveFRow (p : FParsed) : FRow :=
  { id := match p.id with | none => "" | some n => natToDec n
    forwarding_id := match p.forwarding_id with | none => "" | some n => natToDec n
    email_address := p.email_address
    created_at := p.created_at }

/-- Combined state of CSVAutoForwardingRepository and
CSVForwardingFilterRepository: the contents of the two CSV files. -/
structure State where
  rule_rows : List Row
  filter_rows : List FRow
deriving Repr, DecidableEq

/-- CSVAutoForwardingRepository.load_rules on the whole file. -/
def load_rules (st : State) : List Parsed :=
  st.rule_rows.map parseRow

/-- CSVAutoForwardingRepository.create_rule: load, pick max existing id
plus one (1 for an empty file), append, save back. No duplicate-email
check is performed. -/
def create_rule (st : State) (rb : RuleBase) : State × Rule :=
  let rules := load_rules st
  let maxId := rules.foldl (fun m p => match p.id with | some i => max m i | none => m) 0
  let newId := if rules.isEmpty then 1 else maxId + 1
  ({ st with rule_rows := rules.map saveRow ++ [newRow newId rb] }, rb.withId newId)

/-- CSVAutoForwardingRepository.get_rule_by_id: the matching loaded dict,
turned back into a rule object. Every optional field comes back as a
present string (the empty cell parses to the empty string, not None). -/
def get_rule_by_id (st : State) (rid : Nat) : Option Rule :=
  ((load_rules st).find? (fun p => p.id == some rid)).map (fun p =>
    { id := rid
      email := p.email
      name := p.name
      forwarding_email := some p.forwarding_email
      disposition := some p.disposition
      has_forwarding_filters := p.has_forwarding_filters
      error := some p.error
      investigation_note := some p.investigation_note })

/-- CSVForwardingFilterRepository.delete_filters_for_rule: drop the owned
filters and rewrite the file when something was removed. -/
def delete_filters_for_rule (st : State) (rid : Nat) : State × Bool :=
  let fs := st.filter_rows.map parseFRow
  let kept := fs.filter (fun f => !(f.forwarding_id == some rid))
  if kept.length < fs.length then
    ({ st with filter_rows := kept.map saveFRow }, true)
  else
    (st, false)

/-- CSVForwardingFilterRepository.get_filters_for_rule, as filter objects. -/
def get_filters_for_rule (st : State) (rid : Nat) : List A3.Filter3 :=
  ((st.filter_rows.map parseFRow).filter (fun f => f.forwarding_id == some rid)).map
    (fun f =>
      { id := f.id.getD 0
        forwarding_id := rid
        email_address := f.email_address
        created_at := some f.created_at })

/-- CSVAutoForwardingRepository.delete_rule: remove the rule from the
rules file and, when a row was removed, also delete the associated
filters through a CSVForwardingFilterRepository. -/
def delete_rule (st : State) (rid : Nat) : State × Bool :=
  let rules := load_rules st
  let kept := rules.filter (fun p => !(p.id == some rid))
  if kept.length < rules.length then
    let st1 : State := { st with rule_rows := kept.map saveRow }
    let st2 := (delete_filters_for_rule st1 rid).1
    (st2, true)
  else
    (st, false)

end Csv

namespace Dj

/-- Final/forwarding_rules ForwardingFilter: owning rule id (the OneToOne
column forwarding_id), the two JSON mappings and the opaque timestamp. The
JSON mappings are modelled as association lists of strings. -/
structure Filter where
  id : Nat
  forwarding_id : Nat
  criteria : List (String × String)
  action : List (String × String)
  created_at : Option String
deriving Repr, DecidableEq

/-- The filter_data dict handed to DjangoForwardingFilterRepository
create_filter. A forwarding_id of 0 models a falsy (missing) value. -/
structure FilterData where
  forwarding_id : Nat
  criteria : List (String × String)
  action : List (String × String)
  created_at : Option String
deriving Repr, DecidableEq

/-- The Django database: both tables plus the auto-increment counters. -/
structure State where
  rules : List Rule
  next_rule_id : Nat
  filters : List Filter
  next_filter_id : Nat
deriving Repr, DecidableEq

/-- A fresh empty database. -/
def emptyState : State :=
  { rules := [], next_rule_id := 1, filters := [], next_filter_id := 1 }

/-- DjangoAutoForwardingRepository.create_rule: objects.create; the unique
constraint on email rejects a duplicate with an IntegrityError. -/
def create_rule (st : State) (rb : RuleBase) : Except RepoError (State × Rule) :=
  if st.rules.any (fun r => r.email == rb.email) then
    .error .integrityError
  else
    let r := rb.withId st.next_rule_id
    .ok ({ st with rules := st.rules ++ [r], next_rule_id := st.next_rule_id + 1 }, r)

/-- DjangoAutoForwardingRepository.get_rule_by_id. -/
def get_rule_by_id (st : State) (rid : Nat) : Option Rule :=
  st.rules.find? (fun r => r.id == rid)

/-- DjangoAutoForwardingRepository.update_rule: fetch the row, apply the
given field assignments, save; none when the id does not resolve. -/
def update_rule_with (st : State) (rid : Nat) (f : Rule → Rule) :
    Option (State × Rule) :=
  match st.rules.find? (fun r => r.id == rid) with
  | none => none
  | some r =>
      some ({ st with rules := st.rules.map (fun x => if x.id == rid then f x else x) },
            f r)

/-- update_rule applied to the full seven-field rule_data dict. -/
def update_rule (st : State) (rid : Nat) (rb : RuleBase) : Option (State × Rule) :=
  update_rule_with st rid (applyRuleData rb)

/-- update_rule applied to the single-key has_forwarding_filters dict. -/
def update_flag (st : State) (rid : Nat) (b : Bool) : Option (State × Rule) :=
  update_rule_with st rid (setFlag b)

/-- DjangoAutoForwardingRepository.delete_rule: rule.delete(); the OneToOne
field with on_delete CASCADE also removes the owned filter row. -/
def delete_rule (st : State) (rid : Nat) : State × Bool :=
  match st.rules.find? (fun r => r.id == rid) with
  | none => (st, false)
  | some _ =>
      ({ st with
          rules := st.rules.filter (fun r => !(r.id == rid))
          filters := st.filters.filter (fun f => !(f.forwarding_id == rid)) },
       true)

/-- DjangoAutoForwardingRepository.search_rules: icontains on email (the
filter is skipped for a falsy argument) and exact match on the flag. -/
def search_rules (st : State) (email : Option String) (has_filters : Option Bool) :
    List Rule :=
  st.rules.filter (fun r =>
    (match email with
     | none => true
     | some e => if e = "" then true else containsCI r.email e)
    &&
    (match has_filters with
     | none => true
     | some b => r.has_forwarding_filters == b))

/-- DjangoAutoForwardingRepository.get_all_rules: queryset slice. -/
def get_all_rules (st : State) (skip limit : Nat) : List Rule :=
  (st.rules.drop skip).take limit

/-- DjangoForwardingFilterRepository.get_filters_for_rule. -/
def get_filters_for_rule (st : State) (rid : Nat) : List Filter :=
  st.filters.filter (fun f => f.forwarding_id == rid)

/-- DjangoForwardingFilterRepository.create_filter: for a truthy
forwarding_id the owning rule is fetched (ValueError when absent); the
insert respects the OneToOne unique constraint (IntegrityError when a
filter for the rule already exists — no replacement happens); on success
the owning rule's has_forwarding_filters is set to true and saved. A falsy
forwarding_id skips the lookup and the non-null constraint rejects the
insert. -/
def create_filter (st : State) (fd : FilterData) : Except RepoError (State × Filter) :=
  if fd.forwarding_id ≠ 0 then
    match st.rules.find? (fun r => r.id == fd.forwarding_id) with
    | none => .error .valueError
    | some _ =>
        if st.filters.any (fun f => f.forwarding_id == fd.forwarding_id) then
          .error .integrityError
        else
          let f : Filter :=
            { id := st.next_filter_id
              forwarding_id := fd.forwarding_id
              criteria := fd.criteria
              action := fd.action
              created_at := fd.created_at }
          let st1 : State :=
            { st with filters := st.filters ++ [f], next_filter_id := st.next_filter_id + 1 }
          let st2 : State :=
            { st1 with rules := st1.rules.map (fun x =>
                if x.id == fd.forwarding_id then setFlag true x else x) }
          .ok (st2, f)
  else
    .error .integrityError

/-- DjangoForwardingFilterRepository.delete_filters_for_rule: count and
delete the owned filters, then set the owning rule's flag to false when
the rule exists (done even when nothing was deleted); returns whether a
filter was removed. -/
def delete_filters_for_rule (st : State) (rid : Nat) : State × Bool :=
  let count := st.filters.countP (fun f => f.forwarding_id == rid)
  let st1 : State := { st with filters := st.filters.filter (fun f => !(f.forwarding_id == rid)) }
  let st2 : State :=
    match st1.rules.find? (fun r => r.id == rid) with
    | some _ =>
        { st1 with rules := st1.rules.map (fun x => if x.id == rid then setFlag false x else x) }
    | none => st1
  (st2, decide (0 < count))

/-- The counts returned by get_statistics (Django flavour: the optional
fields are counted by non-nullness). -/
structure Stats where
  total_rules : Nat
  active_forwarding : Nat
  rules_with_filters : Nat
  rules_with_errors : Nat
  total_filters : Nat
deriving Repr, DecidableEq

/-- DjangoAutoForwardingRepository.get_statistics. -/
def get_statistics (st : State) : Stats :=
  { total_rules := st.rules.length
    active_forwarding := (st.rules.filter (fun r => r.forwarding_email.isSome)).length
    rules_with_filters := (st.rules.filter (fun r => r.has_forwarding_filters)).length
    rules_with_errors := (st.rules.filter (fun r => r.error.isSome)).length
    total_filters := st.filters.length }

end Dj

/-- The filter part of one sample-data record. -/
structure FilterRecord where
  criteria : List (String × String)
  action : List (String × String)
  created_at : Option String
deriving Repr, DecidableEq

/-- One record of the importer's input (one entry of SAMPLE_DATA). -/
structure ImportRecord where
  email : String
  name : String
  forwarding_email : Option String
  disposition : Option String
  has_forwarding_filters : Bool
  error : Option String
  investigation_note : Option String
  filter : Option FilterRecord
deriving Repr, DecidableEq

/-- The rule_data dict the importer builds from a record. -/
def ImportRecord.ruleData (u : ImportRecord) : RuleBase :=
  { email := u.email
    name := u.name
    forwarding_email := u.forwarding_email
    disposition := u.disposition
    has_forwarding_filters := u.has_forwarding_filters
    error := u.error
    investigation_note := u.investigation_note }

/-- Step 1 of the importer loop: the existing-rule lookup,
next(iter(rule_repo.search_rules(email=email)), None). -/
def lookupExisting (st : Dj.State) (email : String) : Option Rule :=
  (Dj.search_rules st (some email) none).head?

/-- The loop body of store_autoforwarding_data from
Final/sample_data_import.py for a single record: look up an existing rule
through search_rules by email, update it or create a new one, delete any
existing filter for the rule, recreate the incoming filter if the record
has one, and finally re-affirm the flag when the local rule snapshot
(taken before the filter calls) still shows false. -/
def store_one (st : Dj.State) (u : ImportRecord) : Except RepoError Dj.State :=
  let step1 : Except RepoError (Dj.State × Rule) :=
    match lookupExisting st u.email with
    | some er =>
        match Dj.update_rule st er.id u.ruleData with
        | some p => .ok p
        | none => .error .valueError
    | none => Dj.create_rule st u.ruleData
  match step1 with
  | .error e => .error e
  | .ok (st1, ruleSnap) =>
      let rid := ruleSnap.id
      let st2 := (Dj.delete_filters_for_rule st1 rid).1
      match u.filter with
      | none => .ok st2
      | some fr =>
          match Dj.create_filter st2
              { forwarding_id := rid
                criteria := fr.criteria
                action := fr.action
                created_at := fr.created_at } with
          | .error e => .error e
          | .ok (st3, _) =>
              if !ruleSnap.has_forwarding_filters then
                match Dj.update_flag st3 rid true with
                | some p => .ok p.1
                | none => .error .valueError
              else
                .ok st3

/-- store_autoforwarding_data: the loop over all records (a raised
exception aborts the script, modelled by the error short-circuit). -/
def store_autoforwarding_data (st : Dj.State) : List ImportRecord → Except RepoError Dj.State
  | [] => .ok st
  | u :: us =>
      match store_one st u with
      | .error e => .error e
      | .ok st1 => store_autoforwarding_data st1 us

/-- One flowable element of a generated report document
(Final/forwarding_rules/tasks.py). A filterTable element carries the
filter object it was built from; the rendered rows show its id,
created_at, criteria and action. -/
inductive RElem where
  | title (s : String)
  | generatedAt (ts : String)
  | spacer
  | heading (s : String)
  | statsTable (s : Dj.Stats)
  | ruleHeader (id : Nat) (email : String)
  | ruleTable (rows : List (String × String))
  | filterHeading
  | filterTable (f : Dj.Filter)
  | note (s : String)
deriving Repr, DecidableEq

/-- Python x or "None": a missing or empty optional renders as the
explicit None marker. -/
def orNone : Option String → String
  | none => "None"
  | some s => if s = "" then "None" else s

/-- The rule details table of _add_rules_section. -/
def ruleRows (r : Rule) : List (String × String) :=
  [("Attribute", "Value"),
   ("Name", r.name),
   ("Forwarding Email", orNone r.forwarding_email),
   ("Disposition", orNone r.disposition),
   ("Has Filters", if r.has_forwarding_filters then "Yes" else "No"),
   ("Error", orNone r.error),
   ("Investigation Note", orNone r.investigation_note)]

/-- The elements _add_rules_section emits for one rule: header, details
table, spacer, then — only when include_filters is set and the rule's
flag is true and the filter repository returns something — the filter
heading and one table per returned filter, then the separating spacer. -/
def ruleBlock (st : Dj.State) (includeFilters : Bool) (r : Rule) : List RElem :=
  [.ruleHeader r.id r.email, .ruleTable (ruleRows r), .spacer]
  ++ (if includeFilters && r.has_forwarding_filters then
        (let fs := Dj.get_filters_for_rule st r.id
         if fs.isEmpty then []
         else .filterHeading :: fs.flatMap (fun f => [.filterTable f, .spacer]))
      else [])
  ++ [.spacer]

/-- _add_rules_section over a list of rules. -/
def add_rules_section (st : Dj.State) (includeFilters : Bool) (rules : List Rule) :
    List RElem :=
  [.heading "Forwarding Rules", .spacer] ++ rules.flatMap (ruleBlock st includeFilters)

/-- _add_statistics_section. -/
def statsSection (st : Dj.State) : List RElem :=
  [.heading "Statistics", .statsTable (Dj.get_statistics st), .spacer]

/-- The common leading elements from _create_report_base; the generation
timestamp is passed in as a parameter. -/
def baseElems (now titleText : String) : List RElem :=
  [.title titleText, .generatedAt now, .spacer]

/-- generate_rules_report (the full variant): title block, statistics,
then every rule with its filter details. -/
def generate_rules_report (now : String) (st : Dj.State) : List RElem :=
  baseElems now "Email Forwarding Rules Audit Report"
  ++ statsSection st
  ++ add_rules_section st true (Dj.get_all_rules st 0 100)

/-- The closing note of the rules-only report. -/
def rulesOnlyNote : String :=
  "Note: This report contains only basic information about forwarding rules. Filter details have been excluded. For complete information including filters, please generate a full report."

/-- generate_rules_only_report: title block, every rule without filter
details, closing note. -/
def generate_rules_only_report (now : String) (st : Dj.State) : List RElem :=
  baseElems now "Email Forwarding Rules Only Report"
  ++ add_rules_section st false (Dj.get_all_rules st 0 100)
  ++ [.note rulesOnlyNote]

/-! Canonical description of the store the importer produces, used to
analyse re-running store_autoforwarding_data on its own output. -/

/-- The filter row the importer creates for a record, given the assigned
filter id and the owning rule id. -/
def canonFilter (fid rid : Nat) (fr : FilterRecord) : Dj.Filter :=
  { id := fid
    forwarding_id := rid
    criteria := fr.criteria
    action := fr.action
    created_at := fr.created_at }

/-- The rule the importer leaves in store for a record: its scalar fields,
with the derived flag equal to whether the record carries a filter (the
delete-then-create sequence forces exactly that value). -/
def canonRule (rid : Nat) (u : ImportRecord) : Rule :=
  { id := rid
    email := u.email
    name := u.name
    forwarding_email := u.forwarding_email
    disposition := u.disposition
    has_forwarding_filters := u.filter.isSome
    error := u.error
    investigation_note := u.investigation_note }

/-- How many records carry a filter. -/
def fCount (us : List ImportRecord) : Nat :=
  us.countP (fun u => u.filter.isSome)

/-- The store produced by importing the records into an empty store whose
auto-increment counters start at nr (rules) and nf (filters). -/
def canonSt : List ImportRecord → Nat → Nat → Dj.State
  | [], nr, nf => { rules := [], next_rule_id := nr, filters := [], next_filter_id := nf }
  | u :: us, nr, nf =>
      let rest := canonSt us (nr + 1) (nf + if u.filter.isSome then 1 else 0)
      { rules := canonRule nr u :: rest.rules
        next_rule_id := rest.next_rule_id
        filters := (match u.filter with
                    | some fr => [canonFilter nf nr fr]
                    | none => []) ++ rest.filters
        next_filter_id := rest.next_filter_id }

/-- Everything of a stored filter except its assigned identifier. -/
def filterContent (f : Dj.Filter) :
    Nat × List (String × String) × List (String × String) × Option String :=
  (f.forwarding_id, f.criteria, f.action, f.created_at)

/-- No cross-matching between the emails of two distinct records: neither
email occurs case-insensitively inside the other. -/
def noCrossRecords (a b : ImportRecord) : Prop :=
  containsCI b.email a.email = false ∧ containsCI a.email b.email = false

/-- Input lists for which the importer's substring lookup behaves like an
exact-match lookup: non-empty emails, no cross-matching pair. -/
def goodRecords (us : List ImportRecord) : Prop :=
  (∀ u ∈ us, u.email ≠ "") ∧ us.Pairwise noCrossRecords

/-! Concrete fixtures for the counterexamples and witnesses. -/

/-- A rule literal with the optional fields absent. -/
def mkRule (i : Nat) (e n : String) (flag : Bool) : Rule :=
  { id := i
    email := e
    name := n
    forwarding_email := none
    disposition := none
    has_forwarding_filters := flag
    error := none
    investigation_note := none }

/-- A rule-base literal with the optional fields absent. -/
def mkRuleBase (e n : String) (flag : Bool) : RuleBase :=
  { email := e
    name := n
    forwarding_email := none
    disposition := none
    has_forwarding_filters := flag
    error := none
    investigation_note := none }

/-- An Assignment 3 filter payload literal. -/
def mkFilter3Base (rid : Nat) : A3.Filter3Base :=
  { forwarding_id := rid
    email_address := "forwarding@example.com"
    created_at := none }

/-- A Django filter-data literal. -/
def mkFilterData (rid : Nat) : Dj.FilterData :=
  { forwarding_id := rid
    criteria := [("from", "newsletter@company.com")]
    action := [("forward", "john.archive@example.com")]
    created_at := some "2024-01-15" }

/-- An import-record literal without filter. -/
def mkRecord (e n : String) : ImportRecord :=
  { email := e
    name := n
    forwarding_email := none
    disposition := none
    has_forwarding_filters := false
    error := none
    investigation_note := none
    filter := none }

/-- An import-record literal with a filter. -/
def mkRecordF (e n : String) : ImportRecord :=
  { mkRecord e n with
    filter := some { criteria := [("from", "newsletter@company.com")]
                     action := [("forward", "john.archive@example.com")]
                     created_at := some "2024-01-15" } }

/-- A Django store holding one rule without filter. -/
def C1djSt : Dj.State :=
  { rules := [mkRule 1 "user1@example.com" "John" false]
    next_rule_id := 2
    filters := []
    next_filter_id := 1 }

/-- The filter created by mkFilterData 1 with assigned id 1. -/
def C1f : Dj.Filter :=
  { id := 1
    forwarding_id := 1
    criteria := [("from", "newsletter@company.com")]
    action := [("forward", "john.archive@example.com")]
    created_at := some "2024-01-15" }

/-- The store C1djSt after a successful create_filter for rule 1. -/
def C1djSt' : Dj.State :=
  { rules := [mkRule 1 "user1@example.com" "John" true]
    next_rule_id := 2
    filters := [C1f]
    next_filter_id := 2 }

/-- A Django store holding one rule with email a at b dot com. -/
def C3djSt : Dj.State :=
  { rules := [mkRule 1 "a@b.com" "A" false]
    next_rule_id := 2
    filters := []
    next_filter_id := 1 }

/-- A SQLModel store holding one rule with email a at b dot com. -/
def C3sqlSt : Sql.State :=
  { rules := [mkRule 1 "a@b.com" "A" false]
    next_rule_id := 2
    filters := []
    next_filter_id := 1 }

/-- A Django store holding one rule that already owns a filter. -/
def C4djSt : Dj.State :=
  { rules := [mkRule 1 "a@b.com" "A" true]
    next_rule_id := 2
    filters := [C1f]
    next_filter_id := 2 }

/-- An in-memory store holding one rule that owns one filter. -/
def C5memSt : Mem.State :=
  { rules := [mkRule 1 "a@b.com" "A" true]
    next_rule_id := 2
    filters := [{ id := 1, forwarding_id := 1, email_address := "forwarding@example.com", created_at := none }]
    next_filter_id := 2 }

/-- A CSV rule base with every optional field present. -/
def C7rb : RuleBase :=
  { email := "user1@example.com"
    name := "John Doe"
    forwarding_email := some "forwarding@example.com"
    disposition := some "keep"
    has_forwarding_filters := true
    error := some "Permission denied"
    investigation_note := some "Legitimate forwarding to" }

/-- A CSV store already holding one saved rule row. -/
def C7csvSt : Csv.State :=
  { rule_rows := [Csv.newRow 1 (mkRuleBase "other@example.com" "Other" false)]
    filter_rows := [] }

/-- A Django store whose only rule's email differs from the probe email
in case alone. -/
def C8djSt : Dj.State :=
  { rules := [mkRule 1 "USER1@EXAMPLE.COM" "John" false]
    next_rule_id := 2
    filters := []
    next_filter_id := 1 }

/-- A Django store with a flagged rule owning a filter, for the report
claims. -/
def C9djSt : Dj.State :=
  { rules := [mkRule 1 "user1@example.com" "John" true]
    next_rule_id := 2
    filters := [C1f]
    next_filter_id := 2 }

/-- A Django store with 100 unflagged rules followed by a flagged rule
owning a stored filter: the flagged rule lies past the 100-rule snapshot
the report generators read. -/
def C9bigSt : Dj.State :=
  { rules := (List.range 100).map (fun i => mkRule (i + 1) "e@x.com" "N" false)
             ++ [mkRule 101 "u101@x.com" "U" true]
    next_rule_id := 102
    filters := [{ id := 1
                  forwarding_id := 101
                  criteria := [("from", "newsletter@company.com")]
                  action := [("forward", "john.archive@example.com")]
                  created_at := some "2024-01-15" }]
    next_filter_id := 2 }

/-- A good two-record import input, one record with a filter. -/
def C2recs : List ImportRecord :=
  [mkRecordF "user1@example.com" "John", mkRecord "user2@example.com" "Jane"]

/-- The store reached while re-running the importer on its own output:
the records in done have been processed again (their filters recreated
with identifiers starting above every first-run identifier), the records
in vs still carry their first-run filters. The rules are the first-run
rules throughout. -/
def run2State (us done vs : List ImportRecord) : Dj.State :=
  { rules := (canonSt us 1 1).rules
    next_rule_id := 1 + us.length
    filters := (canonSt vs (1 + done.length) (1 + fCount done)).filters
               ++ (canonSt done 1 (1 + fCount us)).filters
    next_filter_id := 1 + fCount us + fCount done }

/-- An import input whose two emails cross-match: the second record's email
is a case-insensitive substring of the first record's email. -/
def C2bad : List ImportRecord :=
  [mkRecord "x@y.com" "A", mkRecord "x" "B"]

instance (a b : ImportRecord) : Decidable (noCrossRecords a b) := by
  unfold noCrossRecords
  infer_instance

instance (us : List ImportRecord) : Decidable (goodRecords us) := by
  unfold goodRecords
  infer_instance
/-! Helper lemmas shared across the claim theorems. -/

theorem find?_map_of_id (g : Rule → Rule) (hg : ∀ x, (g x).id = x.id)
    (l : List Rule) (rid : Nat) :
    (l.map g).find? (fun r => r.id == rid) = (l.find? (fun r => r.id == rid)).map g := by
  rw [List.find?_map]
  have hp : ((fun r : Rule => r.id == rid) ∘ g) = (fun r : Rule => r.id == rid) :=
    funext fun x => by simp [Function.comp, hg]
  rw [hp]

theorem all_of_not_filter_lt {α : Type} (p : α → Bool) (l : List α)
    (h : ¬ (l.filter p).length < l.length) : ∀ a ∈ l, p a = true := by
  induction l with
  | nil => intro a ha; cases ha
  | cons a t ih =>
      by_cases hpa : p a
      · intro b hb
        rcases List.mem_cons.mp hb with rfl | hb
        · exact hpa
        · refine ih (fun hlt => h ?_) _ hb
          simpa [List.filter_cons, hpa] using Nat.succ_lt_succ hlt
      · exfalso
        refine h ?_
        have hle := List.length_filter_le p t
        simp only [List.filter_cons, hpa]
        simp only [Bool.false_eq_true, if_false, List.length_cons]
        omega

/-- Claim C1, counterexample: in the Assignment 3 in-memory backend a
successful create_filter for rule 1 leaves the owning rule's
has_forwarding_filters at false, so the flag update does not happen inside
the FilterStore call for every backend implementation. -/
theorem C1_counterexample :
    (Mem.get_rule_by_id
      ((Mem.create_filter
        { rules := [mkRule 1 "user1@example.com" "John" false], next_rule_id := 2,
          filters := [], next_filter_id := 1 } (mkFilter3Base 1)).1) 1).map
        Rule.has_forwarding_filters = some false := by decide

/-- Claim C1, amended: the flag update does happen inside the FilterStore
call in the Django backend — after a successful create_filter the owning
rule reads back with the flag true, and after delete_filters_for_rule it
reads back with the flag false — but the Assignment 3 in-memory backend's
create_filter does not touch the rules at all. -/
theorem C1_amended :
    (∀ (st st' : Dj.State) (fd : Dj.FilterData) (f : Dj.Filter),
        Dj.create_filter st fd = .ok (st', f) →
        ∃ r, Dj.get_rule_by_id st' fd.forwarding_id = some r ∧ r.has_forwarding_filters = true)
    ∧ (∀ (st : Dj.State) (rid : Nat) (r : Rule),
        Dj.get_rule_by_id (Dj.delete_filters_for_rule st rid).1 rid = some r →
        r.has_forwarding_filters = false)
    ∧ (∀ (st : Mem.State) (fb : A3.Filter3Base),
        ((Mem.create_filter st fb).1).rules = st.rules) := by
  refine ⟨?_, ?_, ?_⟩
  · intro st st' fd f h
    unfold Dj.create_filter at h
    split at h
    next hz =>
      split at h
      next heq => simp at h
      next r0 heq =>
        split at h
        next hany => simp at h
        next hany =>
          simp only [Except.ok.injEq, Prod.mk.injEq] at h
          obtain ⟨hst, -⟩ := h
          subst hst
          unfold Dj.get_rule_by_id
          dsimp only
          rw [find?_map_of_id _ (fun x => by
            by_cases hx : x.id == fd.forwarding_id <;> simp [hx, setFlag]) st.rules
            fd.forwarding_id]
          rw [heq]
          have hid : r0.id = fd.forwarding_id := by simpa using List.find?_some heq
          exact ⟨setFlag true r0, by simp [hid], by simp [setFlag]⟩
    next hz => simp at h
  · intro st rid r h
    unfold Dj.delete_filters_for_rule at h
    dsimp only at h
    split at h
    next r0 heq =>
      unfold Dj.get_rule_by_id at h
      dsimp only at h
      rw [find?_map_of_id _ (fun x => by
        by_cases hx : x.id == rid <;> simp [hx, setFlag]) st.rules rid, heq] at h
      simp only [Option.map_some'] at h
      rcases Option.some.inj h with h
      have hid : r0.id = rid := by simpa using List.find?_some heq
      rw [← h]
      simp [hid, setFlag]
    next heq =>
      unfold Dj.get_rule_by_id at h
      dsimp only at h
      rw [heq] at h
      cases h
  · intro st fb
    rfl

/-- Claim C1, witness for the amended theorem at a concrete store. -/
theorem C1_amended_witness :
    ∃ r, Dj.get_rule_by_id C1djSt' (mkFilterData 1).forwarding_id = some r
      ∧ r.has_forwarding_filters = true :=
  C1_amended.1 C1djSt C1djSt' (mkFilterData 1) C1f (by decide)

/-! Round-trip lemmas for the CSV serialization of integers. -/

theorem decDigitsGo_zero (fuel : Nat) : decDigitsGo fuel 0 = [] := by
  cases fuel <;> rfl

theorem decDigitsGo_succ (fuel m : Nat) :
    decDigitsGo (fuel + 1) (m + 1) = digitCh ((m + 1) % 10) :: decDigitsGo fuel ((m + 1) / 10) :=
  rfl

theorem digitCh_isDigit (d : Nat) (h : d < 10) : isDigitCh (digitCh d) = true := by
  interval_cases d <;> decide

theorem digitCh_toNat (d : Nat) (h : d < 10) : (digitCh d).toNat = 48 + d := by
  interval_cases d <;> decide

theorem decDigitsGo_all_digits (fuel : Nat) :
    ∀ n, n ≤ fuel → ∀ c ∈ decDigitsGo fuel n, isDigitCh c = true := by
  induction fuel with
  | zero =>
      intro n hn c hc
      interval_cases n
      rw [decDigitsGo_zero] at hc
      cases hc
  | succ f ih =>
      intro n hn c hc
      cases n with
      | zero => rw [decDigitsGo_zero] at hc; cases hc
      | succ m =>
          rw [decDigitsGo_succ] at hc
          rcases List.mem_cons.mp hc with rfl | hc
          · exact digitCh_isDigit _ (Nat.mod_lt _ (by omega))
          · have hdiv : (m + 1) / 10 < m + 1 := Nat.div_lt_self (Nat.succ_pos m) (by omega)
            exact ih ((m + 1) / 10) (by omega) c hc

theorem decDigitsGo_foldl (fuel : Nat) :
    ∀ n, 0 < n → n ≤ fuel →
      ((decDigitsGo fuel n).reverse).foldl (fun a c => a * 10 + (c.toNat - 48)) 0 = n := by
  induction fuel with
  | zero => intro n h0 hle; omega
  | succ f ih =>
      intro n h0 hle
      cases n with
      | zero => omega
      | succ m =>
          rw [decDigitsGo_succ, List.reverse_cons, List.foldl_append]
          dsimp only [List.foldl]
          have hd : (digitCh ((m + 1) % 10)).toNat = 48 + (m + 1) % 10 :=
            digitCh_toNat _ (Nat.mod_lt _ (by omega))
          rw [hd]
          by_cases hq : (m + 1) / 10 = 0
          · rw [hq, decDigitsGo_zero]
            dsimp only [List.reverse_nil, List.foldl]
            have hmod := Nat.div_add_mod (m + 1) 10
            omega
          · have hpos : 0 < (m + 1) / 10 := Nat.pos_of_ne_zero hq
            have hdiv : (m + 1) / 10 < m + 1 := Nat.div_lt_self (Nat.succ_pos m) (by omega)
            rw [ih ((m + 1) / 10) hpos (by omega)]
            have hmod := Nat.div_add_mod (m + 1) 10
            omega

theorem natToDec_ne_empty (n : Nat) : natToDec n ≠ "" := by
  unfold natToDec
  by_cases h0 : n = 0
  · subst h0; decide
  · rw [if_neg h0]
    obtain ⟨m, rfl⟩ : ∃ m, n = m + 1 := ⟨n - 1, by omega⟩
    intro hcon
    have : (decDigitsGo (m + 1) (m + 1)).reverse = [] := by
      have := congrArg String.data hcon
      simpa using this
    rw [decDigitsGo_succ, List.reverse_cons] at this
    exact absurd this (by simp)

theorem natToDec_roundtrip (n : Nat) : decToNat? (natToDec n) = some n := by
  by_cases h0 : n = 0
  · subst h0; decide
  · obtain ⟨m, rfl⟩ : ∃ m, n = m + 1 := ⟨n - 1, by omega⟩
    unfold natToDec
    rw [if_neg h0]
    unfold decToNat?
    have hne : ((decDigitsGo (m + 1) (m + 1)).reverse).isEmpty = false := by
      rw [decDigitsGo_succ, List.reverse_cons]
      simp
    have hall : ((decDigitsGo (m + 1) (m + 1)).reverse).all isDigitCh = true := by
      rw [List.all_eq_true]
      intro c hc
      exact decDigitsGo_all_digits (m + 1) (m + 1) le_rfl c (List.mem_reverse.mp hc)
    have hdata : (String.mk ((decDigitsGo (m + 1) (m + 1)).reverse)).data
        = (decDigitsGo (m + 1) (m + 1)).reverse := rfl
    rw [hdata, hne, hall]
    simp only [Bool.not_false, Bool.and_self, if_true, Option.some.injEq]
    exact decDigitsGo_foldl (m + 1) (m + 1) (by omega) le_rfl

theorem parseRow_saveRow (p : Csv.Parsed) : Csv.parseRow (Csv.saveRow p) = p := by
  obtain ⟨pid, pe, pn, pf, pd, pflag, perr, pnote⟩ := p
  cases pid with
  | none =>
      cases pflag <;>
        simp [Csv.parseRow, Csv.saveRow] <;> decide
  | some i =>
      cases pflag <;>
        simp [Csv.parseRow, Csv.saveRow, natToDec_ne_empty, natToDec_roundtrip] <;> decide

theorem parseFRow_saveFRow (p : Csv.FParsed) : Csv.parseFRow (Csv.saveFRow p) = p := by
  obtain ⟨pid, pfwd, pea, pca⟩ := p
  cases pid <;> cases pfwd <;>
    simp [Csv.parseFRow, Csv.saveFRow, natToDec_ne_empty, natToDec_roundtrip]

/-- Claim C3, counterexample: the Assignment 3 in-memory backend accepts a
second rule with an already-used email — the call does not fail and the
store grows, so create_rule does not fail with DuplicateEmail for every
store state. -/
theorem C3_counterexample :
    (((Mem.create_rule ((Mem.create_rule
        { rules := [], next_rule_id := 1, filters := [], next_filter_id := 1 }
        (mkRuleBase "a@b.com" "A" false)).1) (mkRuleBase "a@b.com" "B" false)).1).rules.map
      Rule.email) = ["a@b.com", "a@b.com"] := by decide

/-- Claim C3, amended: only the database-backed backends check for a
duplicate email. The in-memory and CSV backends perform no check at all —
create_rule always persists the rule with a fresh identifier, duplicate
email or not — while both the SQLModel backend (unique index on the email
column) and the Django backend (unique constraint) reject a duplicate
email with an IntegrityError, persisting nothing; with a fresh email every
backend persists the rule and assigns an identifier. -/
theorem C3_amended :
    (∀ (st : Mem.State) (rb : RuleBase),
        ((Mem.create_rule st rb).1).rules = st.rules ++ [rb.withId st.next_rule_id]
        ∧ (Mem.create_rule st rb).2 = rb.withId st.next_rule_id)
    ∧ (∀ (st : Csv.State) (rb : RuleBase), ∃ i,
        ((Csv.create_rule st rb).1).rule_rows
            = (Csv.load_rules st).map Csv.saveRow ++ [Csv.newRow i rb]
        ∧ (Csv.create_rule st rb).2 = rb.withId i)
    ∧ (∀ (st : Sql.State) (rb : RuleBase),
        ((∃ r ∈ st.rules, r.email = rb.email) →
          Sql.create_rule st rb = .error .integrityError)
        ∧ ((∀ r ∈ st.rules, r.email ≠ rb.email) →
          Sql.create_rule st rb
            = .ok ({ st with rules := st.rules ++ [rb.withId st.next_rule_id], next_rule_id := st.next_rule_id + 1 }, rb.withId st.next_rule_id)))
    ∧ (∀ (st : Dj.State) (rb : RuleBase),
        ((∃ r ∈ st.rules, r.email = rb.email) →
          Dj.create_rule st rb = .error .integrityError)
        ∧ ((∀ r ∈ st.rules, r.email ≠ rb.email) →
          Dj.create_rule st rb
            = .ok ({ st with rules := st.rules ++ [rb.withId st.next_rule_id], next_rule_id := st.next_rule_id + 1 }, rb.withId st.next_rule_id))) := by
  refine ⟨fun st rb => ⟨rfl, rfl⟩, ?_, ?_, ?_⟩
  · intro st rb
    exact ⟨_, rfl, rfl⟩
  · intro st rb
    constructor
    · rintro ⟨r, hmem, he⟩
      have hany : st.rules.any (fun x => x.email == rb.email) = true :=
        List.any_eq_true.mpr ⟨r, hmem, by simp [he]⟩
      simp [Sql.create_rule, hany]
    · intro hfr
      have hany : st.rules.any (fun x => x.email == rb.email) = false := by
        rw [List.any_eq_false]
        intro x hx
        simpa using hfr x hx
      simp [Sql.create_rule, hany]
  · intro st rb
    constructor
    · rintro ⟨r, hmem, he⟩
      have hany : st.rules.any (fun x => x.email == rb.email) = true :=
        List.any_eq_true.mpr ⟨r, hmem, by simp [he]⟩
      simp [Dj.create_rule, hany]
    · intro hfr
      have hany : st.rules.any (fun x => x.email == rb.email) = false := by
        rw [List.any_eq_false]
        intro x hx
        simpa using hfr x hx
      simp [Dj.create_rule, hany]

/-- Claim C3, witness: the SQLModel and Django parts of the amended theorem
at concrete one-rule stores — a duplicate email is rejected with an
IntegrityError, a fresh email is persisted with the next identifier. -/
theorem C3_amended_witness :
    Sql.create_rule C3sqlSt (mkRuleBase "a@b.com" "B" false) = .error .integrityError
    ∧ Sql.create_rule C3sqlSt (mkRuleBase "c@d.com" "C" false)
        = .ok ({ C3sqlSt with rules := C3sqlSt.rules ++ [(mkRuleBase "c@d.com" "C" false).withId C3sqlSt.next_rule_id], next_rule_id := C3sqlSt.next_rule_id + 1 },
               (mkRuleBase "c@d.com" "C" false).withId C3sqlSt.next_rule_id)
    ∧ Dj.create_rule C3djSt (mkRuleBase "a@b.com" "B" false) = .error .integrityError
    ∧ Dj.create_rule C3djSt (mkRuleBase "c@d.com" "C" false)
        = .ok ({ C3djSt with rules := C3djSt.rules ++ [(mkRuleBase "c@d.com" "C" false).withId C3djSt.next_rule_id], next_rule_id := C3djSt.next_rule_id + 1 },
               (mkRuleBase "c@d.com" "C" false).withId C3djSt.next_rule_id) :=
  ⟨(C3_amended.2.2.1 C3sqlSt (mkRuleBase "a@b.com" "B" false)).1 (by decide),
   (C3_amended.2.2.1 C3sqlSt (mkRuleBase "c@d.com" "C" false)).2 (by decide),
   (C3_amended.2.2.2 C3djSt (mkRuleBase "a@b.com" "B" false)).1 (by decide),
   (C3_amended.2.2.2 C3djSt (mkRuleBase "c@d.com" "C" false)).2 (by decide)⟩

/-- Claim C4, counterexample: in the in-memory backend a second
create_filter for rule 1 does not replace the first — afterwards the
store holds two filters owned by rule 1, so the at-most-one invariant is
not preserved in every backend. -/
theorem C4_counterexample :
    (Mem.get_filters_for_rule
      ((Mem.create_filter ((Mem.create_filter
        { rules := [mkRule 1 "a@b.com" "A" false], next_rule_id := 2,
          filters := [], next_filter_id := 1 }
        (mkFilter3Base 1)).1) (mkFilter3Base 1)).1) 1).length = 2 := by decide

/-- Claim C4, amended: create_filter never replaces an existing filter.
The in-memory backend plainly appends, keeping every existing filter of
the rule; the Django backend rejects the second create for the same rule
with an IntegrityError (the OneToOne constraint), leaving the original
filter in place. -/
theorem C4_amended :
    (∀ (st : Mem.State) (fb : A3.Filter3Base),
        Mem.get_filters_for_rule (Mem.create_filter st fb).1 fb.forwarding_id
          = Mem.get_filters_for_rule st fb.forwarding_id ++ [fb.withId st.next_filter_id])
    ∧ (∀ (st : Dj.State) (fd : Dj.FilterData),
        fd.forwarding_id ≠ 0 →
        (Dj.get_rule_by_id st fd.forwarding_id).isSome = true →
        (∃ f ∈ st.filters, f.forwarding_id = fd.forwarding_id) →
        Dj.create_filter st fd = .error .integrityError) := by
  constructor
  · intro st fb
    unfold Mem.get_filters_for_rule Mem.create_filter
    dsimp only
    rw [List.filter_append]
    simp [A3.Filter3Base.withId]
  · intro st fd hz hsome hex
    unfold Dj.create_filter
    rw [if_pos hz]
    unfold Dj.get_rule_by_id at hsome
    obtain ⟨r0, hr0⟩ := Option.isSome_iff_exists.mp hsome
    rw [hr0]
    have hany : st.filters.any (fun f => f.forwarding_id == fd.forwarding_id) = true := by
      obtain ⟨f, hf, hfe⟩ := hex
      exact List.any_eq_true.mpr ⟨f, hf, by simp [hfe]⟩
    simp [hany]

/-- Claim C4, witness: the Django part of the amended theorem at a
concrete store that already holds a filter for rule 1. -/
theorem C4_amended_witness :
    Dj.create_filter C4djSt (mkFilterData 1) = .error .integrityError :=
  C4_amended.2 C4djSt (mkFilterData 1) (by decide) (by decide) (by decide)

/-- Claim C5, counterexample: in the in-memory backend (as wired by the
factory) delete_rule alone removes the rule's filter as well — afterwards
no filter owned by rule 1 remains, although one was attached before. -/
theorem C5_counterexample :
    Mem.get_filters_for_rule (Mem.delete_rule C5memSt 1).1 1 = []
    ∧ (Mem.delete_rule C5memSt 1).2 = true
    ∧ Mem.get_filters_for_rule C5memSt 1 ≠ [] := by decide

/-- Claim C5, amended: delete_rule does cascade filter deletion in the
in-memory, CSV and Django backends — after a successful delete_rule the
rule owns no filters; only the SQLModel backend leaves the filter table
untouched. -/
theorem C5_amended :
    (∀ (st : Mem.State) (rid : Nat),
        (Mem.delete_rule st rid).2 = true →
        Mem.get_filters_for_rule (Mem.delete_rule st rid).1 rid = [])
    ∧ (∀ (st : Csv.State) (rid : Nat),
        (Csv.delete_rule st rid).2 = true →
        Csv.get_filters_for_rule (Csv.delete_rule st rid).1 rid = [])
    ∧ (∀ (st : Dj.State) (rid : Nat),
        Dj.get_filters_for_rule (Dj.delete_rule st rid).1 rid = []
        ∨ (Dj.delete_rule st rid).2 = false)
    ∧ (∀ (st : Sql.State) (rid : Nat),
        ((Sql.delete_rule st rid).1).filters = st.filters) := by
  refine ⟨?_, ?_, ?_, ?_⟩
  · intro st rid h2
    by_cases hlt : (st.rules.filter (fun r => !(r.id == rid))).length < st.rules.length
    · unfold Mem.delete_rule Mem.delete_filters_for_rule Mem.get_filters_for_rule
      dsimp only
      rw [if_pos hlt]
      dsimp only
      rw [List.filter_filter]
      simp
    · exfalso
      unfold Mem.delete_rule at h2
      dsimp only at h2
      rw [if_neg hlt] at h2
      simp at h2
  · intro st rid h2
    by_cases hlt : ((Csv.load_rules st).filter (fun p => !(p.id == some rid))).length
        < (Csv.load_rules st).length
    · unfold Csv.delete_rule
      dsimp only
      rw [if_pos hlt]
      dsimp only
      unfold Csv.delete_filters_for_rule
      dsimp only
      by_cases hltF : ((st.filter_rows.map Csv.parseFRow).filter
          (fun f => !(f.forwarding_id == some rid))).length
          < (st.filter_rows.map Csv.parseFRow).length
      · rw [if_pos hltF]
        unfold Csv.get_filters_for_rule
        dsimp only
        rw [List.map_map]
        have hps : Csv.parseFRow ∘ Csv.saveFRow = id := funext parseFRow_saveFRow
        rw [hps, List.map_id, List.filter_filter]
        simp
      · rw [if_neg hltF]
        unfold Csv.get_filters_for_rule
        dsimp only
        have hall := all_of_not_filter_lt _ _ hltF
        have hnil : (st.filter_rows.map Csv.parseFRow).filter
            (fun f => f.forwarding_id == some rid) = [] := by
          rw [List.filter_eq_nil_iff]
          intro a ha
          have hh := hall a ha
          simp only [Bool.not_eq_eq_eq_not, Bool.not_true] at hh ⊢
          simp [hh]
        rw [hnil]
        rfl
    · exfalso
      unfold Csv.delete_rule at h2
      dsimp only at h2
      rw [if_neg hlt] at h2
      simp at h2
  · intro st rid
    unfold Dj.delete_rule
    cases hfind : st.rules.find? (fun r => r.id == rid) with
    | none => right; rfl
    | some r0 =>
        left
        unfold Dj.get_filters_for_rule
        dsimp only
        rw [List.filter_filter]
        simp
  · intro st rid
    unfold Sql.delete_rule
    cases hfind : st.rules.find? (fun r => r.id == rid) <;> rfl

/-- Claim C5, witness: the in-memory part of the amended theorem at the
concrete store. -/
theorem C5_amended_witness :
    Mem.get_filters_for_rule (Mem.delete_rule C5memSt 1).1 1 = [] :=
  C5_amended.1 C5memSt 1 (by decide)

/-- Claim C6, counterexample: the SQLModel backend persists a filter whose
forwarding_id resolves to no rule (the store has no rules at all) and has
no error channel, so create_filter does not fail with UnknownRule in every
backend implementation. -/
theorem C6_counterexample :
    (((Sql.create_filter { rules := [], next_rule_id := 1, filters := [], next_filter_id := 1 }
        (mkFilter3Base 5)).1).filters.map A3.Filter3.forwarding_id) = [5] := by decide

/-- Claim C6, amended: only the Django backend rejects an unresolvable
owning rule id (a ValueError, with nothing persisted); the SQLModel and
in-memory backends append the filter unconditionally, unknown rule id or
not. -/
theorem C6_amended :
    (∀ (st : Dj.State) (fd : Dj.FilterData),
        fd.forwarding_id ≠ 0 →
        Dj.get_rule_by_id st fd.forwarding_id = none →
        Dj.create_filter st fd = .error .valueError)
    ∧ (∀ (st : Sql.State) (fb : A3.Filter3Base),
        ((Sql.create_filter st fb).1).filters = st.filters ++ [fb.withId st.next_filter_id])
    ∧ (∀ (st : Mem.State) (fb : A3.Filter3Base),
        ((Mem.create_filter st fb).1).filters = st.filters ++ [fb.withId st.next_filter_id]) := by
  refine ⟨?_, fun st fb => rfl, fun st fb => rfl⟩
  intro st fd hz hnone
  unfold Dj.create_filter
  rw [if_pos hz]
  unfold Dj.get_rule_by_id at hnone
  rw [hnone]

/-- Claim C6, witness: the Django part of the amended theorem on the empty
store. -/
theorem C6_amended_witness :
    Dj.create_filter Dj.emptyState (mkFilterData 7) = .error .valueError :=
  C6_amended.1 Dj.emptyState (mkFilterData 7) (by decide) (by decide)

/-- Claim C7, counterexample: in the CSV backend a rule created with
forwarding_email None reads back with forwarding_email equal to the empty
string (the empty CSV cell), not None — the fetched rule does not have
the same value in every field. -/
theorem C7_counterexample :
    (Csv.get_rule_by_id ((Csv.create_rule { rule_rows := [], filter_rows := [] }
        (mkRuleBase "a@b.com" "A" false)).1) 1).map Rule.forwarding_email = some (some "")
    ∧ (mkRuleBase "a@b.com" "A" false).forwarding_email = none := by decide

theorem foldl_max_mono (l : List Csv.Parsed) :
    ∀ acc : Nat, acc ≤ l.foldl (fun m q => match q.id with | some j => max m j | none => m) acc := by
  induction l with
  | nil => intro acc; exact le_rfl
  | cons a t ih =>
      intro acc
      refine le_trans ?_ (ih _)
      cases ha : a.id with
      | none => dsimp only; rw [ha]
      | some j => dsimp only; rw [ha]; exact le_max_left _ _

theorem foldl_max_bound (l : List Csv.Parsed) :
    ∀ (acc : Nat) (p : Csv.Parsed), p ∈ l → ∀ i, p.id = some i →
      i ≤ l.foldl (fun m q => match q.id with | some j => max m j | none => m) acc := by
  induction l with
  | nil => intro acc p hp; cases hp
  | cons a t ih =>
      intro acc p hp i hi
      rcases List.mem_cons.mp hp with rfl | hp
      · have hstep : i ≤ (match p.id with | some j => max acc j | none => acc) := by
          rw [hi]; exact le_max_right _ _
        exact le_trans hstep (foldl_max_mono t _)
      · exact ih _ p hp i hi

/-- Claim C7, amended: create-then-fetch returns identical field values in
the in-memory backend (whenever the assigned id is fresh, which the
repository counter guarantees), and in the CSV backend exactly when every
optional field is present; a None optional is read back as the empty
string after serialization, as the counterexample shows. -/
theorem C7_amended :
    (∀ (st : Mem.State) (rb : RuleBase),
        (∀ r ∈ st.rules, r.id ≠ st.next_rule_id) →
        Mem.get_rule_by_id (Mem.create_rule st rb).1 ((Mem.create_rule st rb).2).id
          = some ((Mem.create_rule st rb).2))
    ∧ (∀ (st : Csv.State) (rb : RuleBase),
        rb.forwarding_email ≠ none → rb.disposition ≠ none →
        rb.error ≠ none → rb.investigation_note ≠ none →
        Csv.get_rule_by_id (Csv.create_rule st rb).1 ((Csv.create_rule st rb).2).id
          = some ((Csv.create_rule st rb).2)) := by
  constructor
  · intro st rb hfresh
    unfold Mem.create_rule Mem.get_rule_by_id RuleBase.withId
    dsimp only
    rw [List.find?_append]
    have h1 : st.rules.find? (fun r => r.id == st.next_rule_id) = none := by
      rw [List.find?_eq_none]
      intro x hx
      simpa using hfresh x hx
    rw [h1]
    simp
  · intro st rb h1 h2 h3 h4
    have key : ∀ (rules : List Csv.Parsed) (newId : Nat),
        (∀ p ∈ rules, ∀ i, p.id = some i → i < newId) →
        ((rules.map Csv.saveRow ++ [Csv.newRow newId rb]).map Csv.parseRow).find?
            (fun p => p.id == some newId)
          = some (Csv.parseRow (Csv.newRow newId rb)) := by
      intro rules newId hb
      rw [List.map_append, List.find?_append]
      have hfirst : ((rules.map Csv.saveRow).map Csv.parseRow).find?
          (fun p => p.id == some newId) = none := by
        rw [List.map_map]
        have hps : Csv.parseRow ∘ Csv.saveRow = id := funext parseRow_saveRow
        rw [hps, List.map_id, List.find?_eq_none]
        intro p hp
        cases hpid : p.id with
        | none => simp
        | some i =>
            have hlt := hb p hp i hpid
            simp only [Option.some.injEq, beq_iff_eq]
            omega
      rw [hfirst]
      have hnew : (Csv.parseRow (Csv.newRow newId rb)).id = some newId := by
        unfold Csv.parseRow Csv.newRow
        dsimp only
        rw [if_neg (natToDec_ne_empty newId)]
        exact natToDec_roundtrip newId
      simp [hnew]
    unfold Csv.create_rule Csv.get_rule_by_id RuleBase.withId Csv.load_rules
    dsimp only
    rw [key (st.rule_rows.map Csv.parseRow) _ ?bound]
    case bound =>
      intro p hp i hpid
      by_cases hemp : (st.rule_rows.map Csv.parseRow).isEmpty
      · rw [List.isEmpty_iff] at hemp
        rw [hemp] at hp
        cases hp
      · rw [if_neg hemp]
        have hle := foldl_max_bound (st.rule_rows.map Csv.parseRow) 0 p hp i hpid
        omega
    obtain ⟨fe, hfe⟩ := Option.ne_none_iff_exists'.mp h1
    obtain ⟨dd, hdd⟩ := Option.ne_none_iff_exists'.mp h2
    obtain ⟨er, her⟩ := Option.ne_none_iff_exists'.mp h3
    obtain ⟨nn, hnn⟩ := Option.ne_none_iff_exists'.mp h4
    simp only [Option.map_some']
    congr 1
    unfold Csv.parseRow Csv.newRow Csv.optCell
    dsimp only
    rw [hfe, hdd, her, hnn]
    simp only [Rule.mk.injEq, and_true, true_and]
    cases rb.has_forwarding_filters <;> decide

/-- Claim C7, witness: the CSV part of the amended theorem at a concrete
store and rule. -/
theorem C7_amended_witness :
    Csv.get_rule_by_id (Csv.create_rule C7csvSt C7rb).1 ((Csv.create_rule C7csvSt C7rb).2).id
      = some ((Csv.create_rule C7csvSt C7rb).2) :=
  C7_amended.2 C7csvSt C7rb (by decide) (by decide) (by decide) (by decide)

/-- Claim C8, counterexample: the importer's existing-rule lookup selects
a stored rule whose email differs from the record's email in letter case
alone, so the lookup is not an exact-email match. -/
theorem C8_counterexample :
    (lookupExisting C8djSt "user1@example.com").map Rule.email
      = some "USER1@EXAMPLE.COM" := by decide

/-- Claim C8, amended: for a non-empty record email the lookup selects the
first stored rule whose email contains the record's email
case-insensitively — any selected rule satisfies that substring relation,
and whenever some stored rule satisfies it the lookup returns one. -/
theorem C8_amended :
    ∀ (st : Dj.State) (e : String), e ≠ "" →
      (∀ r, lookupExisting st e = some r → r ∈ st.rules ∧ containsCI r.email e = true)
      ∧ ((∃ r ∈ st.rules, containsCI r.email e = true) →
          (lookupExisting st e).isSome = true) := by
  intro st e he
  have hsearch : Dj.search_rules st (some e) none
      = st.rules.filter (fun r => containsCI r.email e) := by
    unfold Dj.search_rules
    congr 1
    funext r
    dsimp only
    rw [if_neg he]
    exact Bool.and_true _
  constructor
  · intro r hr
    unfold lookupExisting at hr
    rw [hsearch] at hr
    cases hl : st.rules.filter (fun r => containsCI r.email e) with
    | nil => rw [hl] at hr; cases hr
    | cons a t =>
        rw [hl] at hr
        simp only [List.head?_cons, Option.some.injEq] at hr
        subst hr
        have hmem : a ∈ st.rules.filter (fun r => containsCI r.email e) := by
          rw [hl]; exact List.mem_cons_self a t
        exact ⟨(List.mem_filter.mp hmem).1, (List.mem_filter.mp hmem).2⟩
  · rintro ⟨r, hmem, hci⟩
    unfold lookupExisting
    rw [hsearch, List.head?_isSome]
    intro hnil
    rw [List.filter_eq_nil_iff] at hnil
    exact absurd hci (by simpa using hnil r hmem)

/-- Claim C8, witness: the amended theorem at a concrete store whose only
rule matches the probe email case-insensitively. -/
theorem C8_amended_witness :
    (lookupExisting C8djSt "user1@example.com").isSome = true :=
  (C8_amended C8djSt "user1@example.com" (by decide)).2 (by decide)

theorem filterTable_mem_ruleBlock (st : Dj.State) (r : Rule) (f : Dj.Filter) :
    RElem.filterTable f ∈ ruleBlock st true r
      ↔ (r.has_forwarding_filters = true ∧ f ∈ Dj.get_filters_for_rule st r.id) := by
  unfold ruleBlock
  constructor
  · intro hmem
    rcases List.mem_append.mp hmem with hmem | hlast
    · rcases List.mem_append.mp hmem with hfirst | hmid
      · simp at hfirst
      · by_cases hflag : r.has_forwarding_filters = true
        · rw [if_pos (by simp [hflag])] at hmid
          dsimp only at hmid
          by_cases hfs : (Dj.get_filters_for_rule st r.id).isEmpty = true
          · rw [if_pos hfs] at hmid; cases hmid
          · rw [if_neg hfs] at hmid
            rcases List.mem_cons.mp hmid with heq | hmid
            · simp at heq
            · obtain ⟨g, hg, hin⟩ := List.mem_flatMap.mp hmid
              rcases List.mem_cons.mp hin with heq | hin
              · obtain rfl : f = g := by injection heq
                exact ⟨hflag, hg⟩
              · simp at hin
        · rw [if_neg (by simp [hflag])] at hmid; cases hmid
    · simp at hlast
  · rintro ⟨hflag, hf⟩
    refine List.mem_append.mpr (Or.inl (List.mem_append.mpr (Or.inr ?_)))
    rw [if_pos (by simp [hflag])]
    dsimp only
    have hfs : (Dj.get_filters_for_rule st r.id).isEmpty = false := by
      cases hl : Dj.get_filters_for_rule st r.id with
      | nil => rw [hl] at hf; cases hf
      | cons a t => rfl
    rw [if_neg (by simp [hfs])]
    refine List.mem_cons.mpr (Or.inr ?_)
    exact List.mem_flatMap.mpr ⟨f, hf, List.mem_cons_self _ _⟩

theorem filterTable_not_mem_ruleBlock_false (st : Dj.State) (r : Rule) (f : Dj.Filter) :
    RElem.filterTable f ∉ ruleBlock st false r := by
  intro h
  unfold ruleBlock at h
  simp only [Bool.false_and, Bool.false_eq_true, if_false, List.append_nil] at h
  simp at h

/-- Claim C9, counterexample: both report generators read only the first
100 rules of the store (get_all_rules with the default limit 100), so in a
store of 101 rules the last rule — flag true and owning a stored filter —
gets no rule section in the rules-only report and no filter table in the
full report: the claim fails for this store and rule. -/
theorem C9_counterexample :
    ((mkRule 101 "u101@x.com" "U" true) ∈ C9bigSt.rules
      ∧ (mkRule 101 "u101@x.com" "U" true).has_forwarding_filters = true
      ∧ (∃ f ∈ C9bigSt.filters, f.forwarding_id = 101))
    ∧ RElem.ruleHeader 101 "u101@x.com" ∉ generate_rules_only_report "" C9bigSt
    ∧ (generate_rules_report "" C9bigSt).filter (fun e =>
        match e with
        | RElem.filterTable f => f.forwarding_id == 101
        | _ => false) = [] := by decide

/-- Claim C9, amended: the guarantee holds for the rules the reports
actually read — the first 100 of the store. For a rule in that snapshot
whose flag is true and which owns a stored filter, the rules-only report
contains the rule's section and no filter table at all, while the full
report contains a filter table for that rule (carrying the filter's
criteria and action). -/
theorem C9_amended (now : String) (st : Dj.State) (r : Rule)
    (hr : r ∈ Dj.get_all_rules st 0 100)
    (hflag : r.has_forwarding_filters = true)
    (hex : ∃ f ∈ st.filters, f.forwarding_id = r.id) :
    (RElem.ruleHeader r.id r.email ∈ generate_rules_only_report now st
      ∧ ∀ f : Dj.Filter, RElem.filterTable f ∉ generate_rules_only_report now st)
    ∧ (∃ f, RElem.filterTable f ∈ generate_rules_report now st ∧ f.forwarding_id = r.id) := by
  refine ⟨⟨?_, ?_⟩, ?_⟩
  · unfold generate_rules_only_report add_rules_section
    refine List.mem_append.mpr (Or.inl (List.mem_append.mpr (Or.inr ?_)))
    refine List.mem_append.mpr (Or.inr ?_)
    refine List.mem_flatMap.mpr ⟨r, hr, ?_⟩
    unfold ruleBlock
    exact List.mem_append.mpr (Or.inl (List.mem_append.mpr
      (Or.inl (List.mem_cons_self _ _))))
  · intro f hf
    unfold generate_rules_only_report at hf
    rcases List.mem_append.mp hf with hf | hnote
    · rcases List.mem_append.mp hf with hbase | hsec
      · simp [baseElems] at hbase
      · unfold add_rules_section at hsec
        rcases List.mem_append.mp hsec with hh | hblocks
        · simp at hh
        · obtain ⟨r', hr', hin⟩ := List.mem_flatMap.mp hblocks
          exact filterTable_not_mem_ruleBlock_false st r' f hin
    · simp at hnote
  · obtain ⟨f, hfmem, hfid⟩ := hex
    refine ⟨f, ?_, hfid⟩
    unfold generate_rules_report add_rules_section
    refine List.mem_append.mpr (Or.inr ?_)
    refine List.mem_append.mpr (Or.inr ?_)
    refine List.mem_flatMap.mpr ⟨r, hr, ?_⟩
    refine (filterTable_mem_ruleBlock st r f).mpr ⟨hflag, ?_⟩
    exact List.mem_filter.mpr ⟨hfmem, by simp [hfid]⟩

/-- Claim C9, witness: the amended theorem at a concrete store with one
flagged rule owning one filter. -/
theorem C9_amended_witness :
    (RElem.ruleHeader (mkRule 1 "user1@example.com" "John" true).id
        (mkRule 1 "user1@example.com" "John" true).email
          ∈ generate_rules_only_report "" C9djSt
      ∧ ∀ f : Dj.Filter, RElem.filterTable f ∉ generate_rules_only_report "" C9djSt)
    ∧ (∃ f, RElem.filterTable f ∈ generate_rules_report "" C9djSt
        ∧ f.forwarding_id = (mkRule 1 "user1@example.com" "John" true).id) :=
  C9_amended "" C9djSt (mkRule 1 "user1@example.com" "John" true) (by decide) (by decide) (by decide)

/-- Claim C10, confirmed: in the full report a filter table for a filter f
appears exactly when some rule of the snapshot has the flag true and the
filter store returns f for that rule's id — a stale-false flag suppresses
the section, and a stale-true flag with no stored filter produces no
section (and no error). -/
theorem C10 (now : String) (st : Dj.State) (f : Dj.Filter) :
    RElem.filterTable f ∈ generate_rules_report now st
      ↔ ∃ r ∈ Dj.get_all_rules st 0 100,
          r.has_forwarding_filters = true ∧ f ∈ Dj.get_filters_for_rule st r.id := by
  constructor
  · intro h
    unfold generate_rules_report at h
    rcases List.mem_append.mp h with h | hsec
    · rcases List.mem_append.mp h with hbase | hstats
      · simp [baseElems] at hbase
      · simp [statsSection] at hstats
    · unfold add_rules_section at hsec
      rcases List.mem_append.mp hsec with hh | hblocks
      · simp at hh
      · obtain ⟨r, hr, hin⟩ := List.mem_flatMap.mp hblocks
        obtain ⟨hflag, hf⟩ := (filterTable_mem_ruleBlock st r f).mp hin
        exact ⟨r, hr, hflag, hf⟩
  · rintro ⟨r, hr, hflag, hf⟩
    unfold generate_rules_report add_rules_section
    refine List.mem_append.mpr (Or.inr (List.mem_append.mpr (Or.inr ?_)))
    exact List.mem_flatMap.mpr ⟨r, hr, (filterTable_mem_ruleBlock st r f).mpr ⟨hflag, hf⟩⟩

/-- Claim C10, witness: the flagged rule of the concrete store makes its
filter table appear in the full report. -/
theorem C10_witness :
    RElem.filterTable C1f ∈ generate_rules_report "" C9djSt :=
  (C10 "" C9djSt C1f).mpr (by decide)

/-! Helper lemmas for the importer analysis. -/

theorem startsWithCh_refl (l : List Char) : startsWithCh l l = true := by
  induction l with
  | nil => rfl
  | cons a t ih => simp [startsWithCh, ih]

theorem containsCI_self (s : String) : containsCI s s = true := by
  unfold containsCI
  cases h : (lowerStr s).data with
  | nil => rfl
  | cons a t =>
      unfold hasSub
      rw [← h]
      simp [h, startsWithCh_refl]

theorem search_rules_email (st : Dj.State) (e : String) (he : e ≠ "") :
    Dj.search_rules st (some e) none = st.rules.filter (fun r => containsCI r.email e) := by
  unfold Dj.search_rules
  congr 1
  funext r
  dsimp only
  rw [if_neg he]
  exact Bool.and_true _

theorem upd_comp (rid : Nat) (g h : Rule → Rule) (hh : ∀ x, (h x).id = x.id) :
    ((fun x => if x.id == rid then g x else x) ∘ (fun x => if x.id == rid then h x else x))
      = fun x => if x.id == rid then g (h x) else x := by
  funext x
  by_cases hx : x.id = rid
  · simp [Function.comp, hx, hh]
  · simp [Function.comp, hx]

theorem map_upd_eq_self (l : List Rule) (rid : Nat) (F : Rule → Rule)
    (hfix : ∀ x ∈ l, x.id = rid → F x = x) :
    l.map (fun x => if x.id == rid then F x else x) = l := by
  induction l with
  | nil => rfl
  | cons a t ih =>
      simp only [List.map_cons]
      congr 1
      · by_cases ha : a.id = rid
        · simp [ha, hfix a (List.mem_cons_self a t) ha]
        · simp [ha]
      · exact ih (fun x hx => hfix x (List.mem_cons_of_mem a hx))

theorem canonSt_next_rule (us : List ImportRecord) :
    ∀ nr nf, (canonSt us nr nf).next_rule_id = nr + us.length := by
  induction us with
  | nil => intro nr nf; rfl
  | cons u t ih =>
      intro nr nf
      show (canonSt t (nr + 1) _).next_rule_id = nr + (t.length + 1)
      rw [ih]
      omega

theorem canonSt_next_filter (us : List ImportRecord) :
    ∀ nr nf, (canonSt us nr nf).next_filter_id = nf + fCount us := by
  induction us with
  | nil => intro nr nf; rfl
  | cons u t ih =>
      intro nr nf
      show (canonSt t (nr + 1) (nf + _)).next_filter_id = nf + fCount (u :: t)
      rw [ih]
      unfold fCount
      rw [List.countP_cons]
      cases hu : u.filter <;> simp [hu] <;> omega

theorem canonSt_rule_id_bounds (us : List ImportRecord) :
    ∀ nr nf, ∀ r ∈ (canonSt us nr nf).rules, nr ≤ r.id ∧ r.id < nr + us.length := by
  induction us with
  | nil => intro nr nf r hr; cases hr
  | cons u t ih =>
      intro nr nf r hr
      rcases List.mem_cons.mp hr with rfl | hr
      · constructor
        · exact le_rfl
        · show nr < nr + (t.length + 1); omega
      · have := ih (nr + 1) _ r hr
        constructor <;> [omega; (show r.id < nr + (t.length + 1); omega)]

theorem canonSt_rules_email (us : List ImportRecord) :
    ∀ nr nf, ∀ r ∈ (canonSt us nr nf).rules, ∃ v ∈ us, r.email = v.email := by
  induction us with
  | nil => intro nr nf r hr; cases hr
  | cons u t ih =>
      intro nr nf r hr
      rcases List.mem_cons.mp hr with rfl | hr
      · exact ⟨u, List.mem_cons_self u t, rfl⟩
      · obtain ⟨v, hv, he⟩ := ih (nr + 1) _ r hr
        exact ⟨v, List.mem_cons_of_mem u hv, he⟩

theorem canonSt_filter_fwd_bounds (us : List ImportRecord) :
    ∀ nr nf, ∀ f ∈ (canonSt us nr nf).filters, nr ≤ f.forwarding_id ∧ f.forwarding_id < nr + us.length := by
  induction us with
  | nil => intro nr nf f hf; cases hf
  | cons u t ih =>
      intro nr nf f hf
      rcases List.mem_append.mp hf with hhd | hf
      · cases hu : u.filter with
        | none => rw [hu] at hhd; cases hhd
        | some fr =>
            rw [hu] at hhd
            rcases List.mem_cons.mp hhd with rfl | hx
            · constructor
              · exact le_rfl
              · show nr < nr + (t.length + 1); omega
            · cases hx
      · have := ih (nr + 1) _ f hf
        constructor <;> [omega; (show f.forwarding_id < nr + (t.length + 1); omega)]

theorem canonSt_filters_length (us : List ImportRecord) :
    ∀ nr nf, (canonSt us nr nf).filters.length = fCount us := by
  induction us with
  | nil => intro nr nf; rfl
  | cons u t ih =>
      intro nr nf
      show ((match u.filter with
             | some fr => [canonFilter nf nr fr]
             | none => []) ++ (canonSt t (nr + 1) _).filters).length = fCount (u :: t)
      rw [List.length_append, ih]
      unfold fCount
      rw [List.countP_cons]
      cases hu : u.filter <;> simp [hu] <;> omega

theorem canonSt_filters_content (us : List ImportRecord) :
    ∀ nr nf nf1, (canonSt us nr nf).filters.map filterContent
      = (canonSt us nr nf1).filters.map filterContent := by
  induction us with
  | nil => intro nr nf nf1; rfl
  | cons u t ih =>
      intro nr nf nf1
      show ((match u.filter with
             | some fr => [canonFilter nf nr fr]
             | none => []) ++ _).map filterContent
          = ((match u.filter with
             | some fr => [canonFilter nf1 nr fr]
             | none => []) ++ _).map filterContent
      rw [List.map_append, List.map_append]
      congr 1
      · cases hu : u.filter <;> rfl
      · exact ih (nr + 1) _ _

theorem fCount_cons (u : ImportRecord) (t : List ImportRecord) :
    fCount (u :: t) = fCount t + (if u.filter.isSome then 1 else 0) := by
  unfold fCount
  rw [List.countP_cons]

theorem canonSt_append (a b : List ImportRecord) :
    ∀ nr nf, canonSt (a ++ b) nr nf
      = { rules := (canonSt a nr nf).rules ++ (canonSt b (nr + a.length) (nf + fCount a)).rules
          next_rule_id := (canonSt b (nr + a.length) (nf + fCount a)).next_rule_id
          filters := (canonSt a nr nf).filters ++ (canonSt b (nr + a.length) (nf + fCount a)).filters
          next_filter_id := (canonSt b (nr + a.length) (nf + fCount a)).next_filter_id } := by
  induction a with
  | nil => intro nr nf; rfl
  | cons u a ih =>
      intro nr nf
      show ({ rules := canonRule nr u :: (canonSt (a ++ b) (nr + 1) _).rules
              next_rule_id := (canonSt (a ++ b) (nr + 1) _).next_rule_id
              filters := _ ++ (canonSt (a ++ b) (nr + 1) _).filters
              next_filter_id := (canonSt (a ++ b) (nr + 1) _).next_filter_id } : Dj.State) = _
      rw [ih (nr + 1) (nf + if u.filter.isSome then 1 else 0)]
      have harg1 : (nr + 1) + a.length = nr + (a.length + 1) := by omega
      have harg2 : (nf + if u.filter.isSome then 1 else 0) + fCount a = nf + fCount (u :: a) := by
        rw [fCount_cons]; omega
      rw [harg1, harg2]
      simp [canonSt, List.append_assoc]

theorem canon_filter_email (u : ImportRecord) :
    ∀ (done vs : List ImportRecord) (nr nf : Nat),
      (done ++ u :: vs).Pairwise noCrossRecords →
      ((canonSt (done ++ u :: vs) nr nf).rules).filter (fun r => containsCI r.email u.email)
        = [canonRule (nr + done.length) u] := by
  intro done
  induction done with
  | nil =>
      intro vs nr nf hpw
      rw [List.nil_append] at hpw ⊢
      rw [show (canonSt (u :: vs) nr nf).rules
          = canonRule nr u :: (canonSt vs (nr + 1)
              (nf + if u.filter.isSome then 1 else 0)).rules from rfl]
      rw [List.filter_cons]
      rw [if_pos (by simp [canonRule, containsCI_self])]
      have hrest : ((canonSt vs (nr + 1)
          (nf + if u.filter.isSome then 1 else 0)).rules).filter
          (fun r => containsCI r.email u.email) = [] := by
        rw [List.filter_eq_nil_iff]
        intro r hr
        obtain ⟨v, hv, he⟩ := canonSt_rules_email vs (nr + 1) _ r hr
        have hnc : noCrossRecords u v := (List.pairwise_cons.mp hpw).1 v hv
        rw [he]
        simp [hnc.1]
      rw [hrest]
      rfl
  | cons d done ih =>
      intro vs nr nf hpw
      rw [List.cons_append] at hpw
      rw [show (canonSt ((d :: done) ++ u :: vs) nr nf).rules
          = canonRule nr d :: (canonSt (done ++ u :: vs) (nr + 1)
              (nf + if d.filter.isSome then 1 else 0)).rules from rfl]
      rw [List.filter_cons]
      have hpc := List.pairwise_cons.mp hpw
      have hnc : noCrossRecords d u :=
        hpc.1 u (List.mem_append.mpr (Or.inr (List.mem_cons_self u vs)))
      rw [if_neg (by simp [canonRule, hnc.2])]
      rw [ih vs (nr + 1) _ hpc.2]
      have harg : (nr + 1) + done.length = nr + (done.length + 1) := by omega
      rw [harg]
      rfl

theorem canonSt_find_id (u : ImportRecord) :
    ∀ (done vs : List ImportRecord) (nr nf : Nat),
      (canonSt (done ++ u :: vs) nr nf).rules.find? (fun r => r.id == nr + done.length)
        = some (canonRule (nr + done.length) u) := by
  intro done
  induction done with
  | nil =>
      intro vs nr nf
      rw [List.nil_append]
      rw [show (canonSt (u :: vs) nr nf).rules
          = canonRule nr u :: (canonSt vs (nr + 1)
              (nf + if u.filter.isSome then 1 else 0)).rules from rfl]
      rw [List.find?_cons_of_pos _ (by simp [canonRule])]
      rfl
  | cons d done ih =>
      intro vs nr nf
      rw [List.cons_append]
      rw [show (canonSt (d :: (done ++ u :: vs)) nr nf).rules
          = canonRule nr d :: (canonSt (done ++ u :: vs) (nr + 1)
              (nf + if d.filter.isSome then 1 else 0)).rules from rfl]
      have hne : ¬ (((canonRule nr d).id == nr + (d :: done).length) = true) := by
        simp only [canonRule, List.length_cons, beq_iff_eq]
        omega
      rw [List.find?_cons_of_neg
        (p := fun r => r.id == nr + (d :: done).length)
        (a := canonRule nr d) _ hne]
      have harg : nr + (d :: done).length = (nr + 1) + done.length := by
        simp only [List.length_cons]
        omega
      rw [harg]
      exact ih vs (nr + 1) _

theorem canonSt_id_unique (u : ImportRecord) :
    ∀ (done vs : List ImportRecord) (nr nf : Nat),
      ∀ x ∈ (canonSt (done ++ u :: vs) nr nf).rules,
        x.id = nr + done.length → x = canonRule (nr + done.length) u := by
  intro done
  induction done with
  | nil =>
      intro vs nr nf x hx hid
      rw [List.nil_append] at hx
      rcases List.mem_cons.mp hx with rfl | hx
      · rfl
      · have hb := canonSt_rule_id_bounds vs (nr + 1) _ x hx
        simp only [List.length_nil] at hid
        omega
  | cons d done ih =>
      intro vs nr nf x hx hid
      rw [List.cons_append] at hx
      rcases List.mem_cons.mp hx with rfl | hx
      · exfalso
        have hdid : (canonRule nr d).id = nr := rfl
        simp only [List.length_cons] at hid
        omega
      · have harg : nr + (d :: done).length = (nr + 1) + done.length := by
          simp only [List.length_cons]
          omega
        rw [harg] at hid ⊢
        exact ih vs (nr + 1) _ x hx hid

theorem store_one_create (st : Dj.State) (u : ImportRecord)
    (hpos : 0 < st.next_rule_id)
    (hne : u.email ≠ "")
    (hnm : ∀ r ∈ st.rules, containsCI r.email u.email = false)
    (hid : ∀ r ∈ st.rules, r.id < st.next_rule_id)
    (hfw : ∀ f ∈ st.filters, f.forwarding_id < st.next_rule_id) :
    store_one st u
      = .ok { rules := st.rules ++ [canonRule st.next_rule_id u]
              next_rule_id := st.next_rule_id + 1
              filters := st.filters ++ (match u.filter with
                         | some fr => [canonFilter st.next_filter_id st.next_rule_id fr]
                         | none => [])
              next_filter_id := st.next_filter_id + (if u.filter.isSome then 1 else 0) } := by
  have hlk : lookupExisting st u.email = none := by
    unfold lookupExisting
    rw [search_rules_email st u.email hne]
    rw [List.filter_eq_nil_iff.mpr (fun r hr => by simp [hnm r hr])]
    rfl
  have hany : st.rules.any (fun r => r.email == u.ruleData.email) = false := by
    rw [List.any_eq_false]
    intro r hr hcon
    have heq : r.email = u.email := by simpa [ImportRecord.ruleData] using hcon
    have h2 := hnm r hr
    rw [heq, containsCI_self] at h2
    cases h2
  have hcr : Dj.create_rule st u.ruleData
      = .ok ({ st with
                rules := st.rules ++ [u.ruleData.withId st.next_rule_id]
                next_rule_id := st.next_rule_id + 1 },
             u.ruleData.withId st.next_rule_id) := by
    unfold Dj.create_rule
    rw [if_neg (by simp [hany])]
  have hfind0 : ∀ r : Rule, r.id = st.next_rule_id →
      (st.rules ++ [r]).find? (fun x => x.id == st.next_rule_id) = some r := by
    intro r hr
    rw [List.find?_append]
    rw [List.find?_eq_none.mpr (fun x hx => by
      have := hid x hx
      simp only [beq_iff_eq]
      omega)]
    simp [hr]
  have hmapApp : ∀ (g : Rule → Rule) (r : Rule), r.id = st.next_rule_id →
      (st.rules ++ [r]).map (fun x => if x.id == st.next_rule_id then g x else x)
        = st.rules ++ [g r] := by
    intro g r hr
    rw [List.map_append, map_upd_eq_self st.rules st.next_rule_id g
        (fun x hx hxe => absurd hxe (by have := hid x hx; omega))]
    simp [hr]
  have hdel : Dj.delete_filters_for_rule
      { st with
        rules := st.rules ++ [u.ruleData.withId st.next_rule_id]
        next_rule_id := st.next_rule_id + 1 } st.next_rule_id
      = ({ st with
            rules := st.rules ++ [setFlag false (u.ruleData.withId st.next_rule_id)]
            next_rule_id := st.next_rule_id + 1 },
         decide (0 < st.filters.countP (fun f => f.forwarding_id == st.next_rule_id))) := by
    unfold Dj.delete_filters_for_rule
    dsimp only
    rw [List.filter_eq_self.mpr (fun f hf => by
      have := hfw f hf
      simp only [Bool.not_eq_eq_eq_not, Bool.not_true, beq_eq_false_iff_ne, ne_eq]
      omega)]
    rw [hfind0 _ rfl]
    dsimp only
    rw [hmapApp (setFlag false) _ rfl]
  have hidr : (u.ruleData.withId st.next_rule_id).id = st.next_rule_id := rfl
  have hflagr : (u.ruleData.withId st.next_rule_id).has_forwarding_filters
      = u.has_forwarding_filters := rfl
  cases hufl : u.filter with
  | none =>
      simp only [store_one, hlk, hcr, hidr, hdel, hufl]
      simp [canonRule, setFlag, RuleBase.withId, ImportRecord.ruleData, hufl]
  | some fr =>
      have hanyf : st.filters.any (fun f => f.forwarding_id == st.next_rule_id) = false := by
        rw [List.any_eq_false]
        intro f hf hcon
        have := hfw f hf
        simp only [beq_iff_eq] at hcon
        omega
      have hcf : Dj.create_filter
          { st with
            rules := st.rules ++ [setFlag false (u.ruleData.withId st.next_rule_id)]
            next_rule_id := st.next_rule_id + 1 }
          { forwarding_id := st.next_rule_id, criteria := fr.criteria,
            action := fr.action, created_at := fr.created_at }
          = .ok ({ st with
                   rules := st.rules
                     ++ [setFlag true (setFlag false (u.ruleData.withId st.next_rule_id))]
                   next_rule_id := st.next_rule_id + 1
                   filters := st.filters ++ [canonFilter st.next_filter_id st.next_rule_id fr]
                   next_filter_id := st.next_filter_id + 1 },
                 canonFilter st.next_filter_id st.next_rule_id fr) := by
        unfold Dj.create_filter
        rw [if_pos (by dsimp only; omega)]
        dsimp only
        rw [hfind0 _ rfl]
        rw [if_neg (by simp [hanyf])]
        dsimp only
        rw [hmapApp (setFlag true) _ rfl]
        rfl
      have hupd : Dj.update_flag
          { st with
            rules := st.rules
              ++ [setFlag true (setFlag false (u.ruleData.withId st.next_rule_id))]
            next_rule_id := st.next_rule_id + 1
            filters := st.filters ++ [canonFilter st.next_filter_id st.next_rule_id fr]
            next_filter_id := st.next_filter_id + 1 } st.next_rule_id true
          = some ({ st with
              rules := st.rules
                ++ [setFlag true (setFlag false (u.ruleData.withId st.next_rule_id))]
              next_rule_id := st.next_rule_id + 1
              filters := st.filters ++ [canonFilter st.next_filter_id st.next_rule_id fr]
              next_filter_id := st.next_filter_id + 1 },
             setFlag true (setFlag true (setFlag false (u.ruleData.withId st.next_rule_id)))) := by
        unfold Dj.update_flag Dj.update_rule_with
        dsimp only
        rw [hfind0 _ rfl]
        dsimp only
        rw [hmapApp (setFlag true) _ rfl]
        rfl
      simp only [store_one, hlk, hcr, hidr, hdel, hufl, hcf, hflagr]
      cases hub : u.has_forwarding_filters with
      | false =>
          simp only [hub, Bool.not_false, if_true, hupd]
          simp [canonRule, setFlag, RuleBase.withId, ImportRecord.ruleData, hufl]
      | true =>
          simp only [hub, Bool.not_true, if_false]
          simp [canonRule, setFlag, RuleBase.withId, ImportRecord.ruleData, hufl]

theorem run1_general (us : List ImportRecord) :
    ∀ (st : Dj.State),
      0 < st.next_rule_id →
      (∀ u ∈ us, u.email ≠ "") →
      us.Pairwise noCrossRecords →
      (∀ u ∈ us, ∀ r ∈ st.rules, containsCI r.email u.email = false) →
      (∀ r ∈ st.rules, r.id < st.next_rule_id) →
      (∀ f ∈ st.filters, f.forwarding_id < st.next_rule_id) →
      store_autoforwarding_data st us
        = .ok { rules := st.rules ++ (canonSt us st.next_rule_id st.next_filter_id).rules
                next_rule_id := (canonSt us st.next_rule_id st.next_filter_id).next_rule_id
                filters := st.filters ++ (canonSt us st.next_rule_id st.next_filter_id).filters
                next_filter_id := (canonSt us st.next_rule_id st.next_filter_id).next_filter_id } := by
  induction us with
  | nil =>
      intro st _ _ _ _ _ _
      simp [store_autoforwarding_data, canonSt]
  | cons u us ih =>
      intro st hpos hne hpw hnm hid hfw
      have hcreate := store_one_create st u hpos (hne u (List.mem_cons_self u us))
        (hnm u (List.mem_cons_self u us)) hid hfw
      simp only [store_autoforwarding_data, hcreate]
      have hih := ih
        { rules := st.rules ++ [canonRule st.next_rule_id u]
          next_rule_id := st.next_rule_id + 1
          filters := st.filters ++ (match u.filter with
                     | some fr => [canonFilter st.next_filter_id st.next_rule_id fr]
                     | none => [])
          next_filter_id := st.next_filter_id + (if u.filter.isSome then 1 else 0) }
        (by dsimp only; omega)
        (fun v hv => hne v (List.mem_cons_of_mem u hv))
        (List.pairwise_cons.mp hpw).2
        (by
          intro v hv r hr
          rcases List.mem_append.mp hr with hr | hr
          · exact hnm v (List.mem_cons_of_mem u hv) r hr
          · rcases List.mem_cons.mp hr with rfl | hx
            · have hnc := (List.pairwise_cons.mp hpw).1 v hv
              simpa [canonRule] using hnc.2
            · cases hx)
        (by
          intro r hr
          dsimp only
          rcases List.mem_append.mp hr with hr | hr
          · have := hid r hr; omega
          · rcases List.mem_cons.mp hr with rfl | hx
            · show (canonRule st.next_rule_id u).id < st.next_rule_id + 1
              simp [canonRule]
            · cases hx)
        (by
          intro f hf
          dsimp only
          rcases List.mem_append.mp hf with hf | hf
          · have := hfw f hf; omega
          · cases hu : u.filter with
            | none => rw [hu] at hf; cases hf
            | some fr =>
                rw [hu] at hf
                rcases List.mem_cons.mp hf with rfl | hx
                · show (canonFilter st.next_filter_id st.next_rule_id fr).forwarding_id
                      < st.next_rule_id + 1
                  simp [canonFilter]
                · cases hx)
      rw [hih]
      simp [canonSt, List.append_assoc]

theorem any_filter_not (fs : List Dj.Filter) (rid : Nat) :
    (fs.filter (fun f => !(f.forwarding_id == rid))).any (fun f => f.forwarding_id == rid)
      = false := by
  rw [List.any_eq_false]
  intro f hf
  have h2 := (List.mem_filter.mp hf).2
  simp only [Bool.not_eq_eq_eq_not, Bool.not_true, beq_eq_false_iff_ne, ne_eq] at h2
  simp [h2]


theorem store_one_update (st : Dj.State) (u : ImportRecord) (rid : Nat)
    (hrid0 : rid ≠ 0)
    (hlk : lookupExisting st u.email = some (canonRule rid u))
    (hfind : st.rules.find? (fun r => r.id == rid) = some (canonRule rid u))
    (hfix : ∀ x ∈ st.rules, x.id = rid → x = canonRule rid u) :
    store_one st u
      = .ok { st with
              filters := st.filters.filter (fun f => !(f.forwarding_id == rid))
                         ++ (match u.filter with
                             | some fr => [canonFilter st.next_filter_id rid fr]
                             | none => [])
              next_filter_id := st.next_filter_id + (if u.filter.isSome then 1 else 0) } := by
  have hcid : (canonRule rid u).id = rid := rfl
  have hfind1 : ∀ (g : Rule → Rule), (∀ x, (g x).id = x.id) →
      (st.rules.map (fun x => if x.id == rid then g x else x)).find? (fun r => r.id == rid)
        = some (g (canonRule rid u)) := by
    intro g hg
    rw [find?_map_of_id _ (fun x => by
      by_cases hx : (x.id == rid) = true <;> simp [hx, hg]) st.rules rid, hfind]
    simp [hcid]
  have h1 : Dj.update_rule st rid u.ruleData
      = some ({ st with
                rules := st.rules.map
                    (fun x => if x.id == rid then applyRuleData u.ruleData x else x) },
              applyRuleData u.ruleData (canonRule rid u)) := by
    unfold Dj.update_rule Dj.update_rule_with
    rw [hfind]
  have hsnapid : (applyRuleData u.ruleData (canonRule rid u)).id = rid := rfl
  have hsnapflag : (applyRuleData u.ruleData (canonRule rid u)).has_forwarding_filters
      = u.has_forwarding_filters := rfl
  have hfd2 : ((st.rules.map
      (fun x => if x.id == rid then applyRuleData u.ruleData x else x)).map
      (fun x => if x.id == rid then setFlag false x else x)).find? (fun r => r.id == rid)
      = some (setFlag false (applyRuleData u.ruleData (canonRule rid u))) := by
    rw [List.map_map,
      upd_comp rid (setFlag false) (applyRuleData u.ruleData) (fun x => rfl)]
    exact hfind1 (fun x => setFlag false (applyRuleData u.ruleData x)) (fun x => rfl)
  have h2 : Dj.delete_filters_for_rule
      { st with
        rules := st.rules.map
            (fun x => if x.id == rid then applyRuleData u.ruleData x else x) } rid
      = ({ st with
            rules := (st.rules.map
              (fun x => if x.id == rid then applyRuleData u.ruleData x else x)).map
              (fun x => if x.id == rid then setFlag false x else x)
            filters := st.filters.filter (fun f => !(f.forwarding_id == rid)) },
         decide (0 < st.filters.countP (fun f => f.forwarding_id == rid))) := by
    unfold Dj.delete_filters_for_rule
    dsimp only
    rw [hfind1 (applyRuleData u.ruleData) (fun x => rfl)]
  cases hufl : u.filter with
  | none =>
      simp only [store_one, hlk, hcid, h1, hsnapid, h2, hufl]
      rw [List.map_map,
        upd_comp rid (setFlag false) (applyRuleData u.ruleData) (fun x => rfl)]
      rw [map_upd_eq_self st.rules rid _ (fun x hx hxe => by
        rw [hfix x hx hxe]
        show setFlag false (applyRuleData u.ruleData (canonRule rid u)) = canonRule rid u
        simp [setFlag, applyRuleData, canonRule, ImportRecord.ruleData, hufl])]
      simp
  | some fr =>
      have h3 : Dj.create_filter
          { st with
            rules := (st.rules.map
              (fun x => if x.id == rid then applyRuleData u.ruleData x else x)).map
              (fun x => if x.id == rid then setFlag false x else x)
            filters := st.filters.filter (fun f => !(f.forwarding_id == rid)) }
          { forwarding_id := rid, criteria := fr.criteria,
            action := fr.action, created_at := fr.created_at }
          = .ok ({ st with
                   rules := (((st.rules.map
                     (fun x => if x.id == rid then applyRuleData u.ruleData x else x)).map
                     (fun x => if x.id == rid then setFlag false x else x)).map
                     (fun x => if x.id == rid then setFlag true x else x))
                   filters := st.filters.filter (fun f => !(f.forwarding_id == rid))
                     ++ [canonFilter st.next_filter_id rid fr]
                   next_filter_id := st.next_filter_id + 1 },
                 canonFilter st.next_filter_id rid fr) := by
        unfold Dj.create_filter
        rw [if_pos (by dsimp only; exact hrid0)]
        dsimp only
        rw [hfd2]
        rw [if_neg (by simp [any_filter_not])]
        rfl
      have hfd3 : ((((st.rules.map
          (fun x => if x.id == rid then applyRuleData u.ruleData x else x)).map
          (fun x => if x.id == rid then setFlag false x else x)).map
          (fun x => if x.id == rid then setFlag true x else x))).find?
          (fun r => r.id == rid)
          = some (setFlag true (setFlag false
              (applyRuleData u.ruleData (canonRule rid u)))) := by
        rw [List.map_map,
          upd_comp rid (setFlag true) (setFlag false) (fun x => rfl),
          List.map_map,
          upd_comp rid (fun x => setFlag true (setFlag false x))
            (applyRuleData u.ruleData) (fun x => rfl)]
        exact hfind1
          (fun x => setFlag true (setFlag false (applyRuleData u.ruleData x)))
          (fun x => rfl)
      have h4 : Dj.update_flag
          ({ st with
             rules := (((st.rules.map
               (fun x => if x.id == rid then applyRuleData u.ruleData x else x)).map
               (fun x => if x.id == rid then setFlag false x else x)).map
               (fun x => if x.id == rid then setFlag true x else x))
             filters := st.filters.filter (fun f => !(f.forwarding_id == rid))
               ++ [canonFilter st.next_filter_id rid fr]
             next_filter_id := st.next_filter_id + 1 }) rid true
          = some ({ st with
              rules := ((((st.rules.map
                (fun x => if x.id == rid then applyRuleData u.ruleData x else x)).map
                (fun x => if x.id == rid then setFlag false x else x)).map
                (fun x => if x.id == rid then setFlag true x else x)).map
                (fun x => if x.id == rid then setFlag true x else x))
              filters := st.filters.filter (fun f => !(f.forwarding_id == rid))
                ++ [canonFilter st.next_filter_id rid fr]
              next_filter_id := st.next_filter_id + 1 },
             setFlag true (setFlag true (setFlag false
               (applyRuleData u.ruleData (canonRule rid u))))) := by
        unfold Dj.update_flag Dj.update_rule_with
        dsimp only
        rw [hfd3]
      simp only [store_one, hlk, hcid, h1, hsnapid, h2, hufl, h3, hsnapflag]
      cases hub : u.has_forwarding_filters with
      | true =>
          simp only [Bool.not_true, if_false]
          rw [List.map_map,
            upd_comp rid (setFlag true) (setFlag false) (fun x => rfl),
            List.map_map,
            upd_comp rid (fun x => setFlag true (setFlag false x))
              (applyRuleData u.ruleData) (fun x => rfl)]
          rw [map_upd_eq_self st.rules rid _ (fun x hx hxe => by
            rw [hfix x hx hxe]
            show setFlag true (setFlag false (applyRuleData u.ruleData (canonRule rid u)))
              = canonRule rid u
            simp [setFlag, applyRuleData, canonRule, ImportRecord.ruleData, hufl])]
          simp
      | false =>
          simp only [Bool.not_false, if_true, h4]
          rw [List.map_map,
            upd_comp rid (setFlag true) (setFlag true) (fun x => rfl),
            List.map_map,
            upd_comp rid (fun x => setFlag true (setFlag true x))
              (setFlag false) (fun x => rfl),
            List.map_map,
            upd_comp rid (fun x => setFlag true (setFlag true (setFlag false x)))
              (applyRuleData u.ruleData) (fun x => rfl)]
          rw [map_upd_eq_self st.rules rid _ (fun x hx hxe => by
            rw [hfix x hx hxe]
            show setFlag true (setFlag true (setFlag false
              (applyRuleData u.ruleData (canonRule rid u)))) = canonRule rid u
            simp [setFlag, applyRuleData, canonRule, ImportRecord.ruleData, hufl])]
          simp

theorem fCount_append (a b : List ImportRecord) : fCount (a ++ b) = fCount a + fCount b := by
  unfold fCount
  exact List.countP_append _ _ _

theorem run2_general (us : List ImportRecord)
    (hne : ∀ u ∈ us, u.email ≠ "")
    (hpw : us.Pairwise noCrossRecords) :
    ∀ (vs done : List ImportRecord), us = done ++ vs →
      store_autoforwarding_data (run2State us done vs) vs = .ok (run2State us us []) := by
  intro vs
  induction vs with
  | nil =>
      intro done hsplit
      rw [List.append_nil] at hsplit
      subst hsplit
      rfl
  | cons u vs ih =>
      intro done hsplit
      have hu_mem : u ∈ us := by
        rw [hsplit]
        exact List.mem_append.mpr (Or.inr (List.mem_cons_self u vs))
      have hustep := store_one_update (run2State us done (u :: vs)) u (1 + done.length)
        (by omega)
        (by
          unfold lookupExisting
          rw [search_rules_email _ _ (hne u hu_mem)]
          rw [show (run2State us done (u :: vs)).rules = (canonSt us 1 1).rules from rfl]
          rw [hsplit]
          rw [canon_filter_email u done vs 1 1 (hsplit ▸ hpw)]
          rfl)
        (by
          rw [show (run2State us done (u :: vs)).rules = (canonSt us 1 1).rules from rfl,
            hsplit]
          exact canonSt_find_id u done vs 1 1)
        (by
          intro x hx hxe
          rw [show (run2State us done (u :: vs)).rules = (canonSt us 1 1).rules from rfl,
            hsplit] at hx
          exact canonSt_id_unique u done vs 1 1 x hx hxe)
      simp only [store_autoforwarding_data, hustep]
      have hHead : ((match u.filter with
          | some fr => [canonFilter (1 + fCount done) (1 + done.length) fr]
          | none => []) : List Dj.Filter).filter
          (fun f => !(f.forwarding_id == 1 + done.length)) = [] := by
        cases u.filter with
        | none => rfl
        | some fr => simp [canonFilter]
      have hRest : ((canonSt vs (1 + done.length + 1)
          (1 + fCount done + if u.filter.isSome then 1 else 0)).filters).filter
          (fun f => !(f.forwarding_id == 1 + done.length))
          = (canonSt vs (1 + done.length + 1)
              (1 + fCount done + if u.filter.isSome then 1 else 0)).filters := by
        rw [List.filter_eq_self]
        intro f hf
        have hb := canonSt_filter_fwd_bounds vs (1 + done.length + 1) _ f hf
        simp only [Bool.not_eq_eq_eq_not, Bool.not_true, beq_eq_false_iff_ne, ne_eq]
        omega
      have hB : ((canonSt done 1 (1 + fCount us)).filters).filter
          (fun f => !(f.forwarding_id == 1 + done.length))
          = (canonSt done 1 (1 + fCount us)).filters := by
        rw [List.filter_eq_self]
        intro f hf
        have hb := canonSt_filter_fwd_bounds done 1 _ f hf
        simp only [Bool.not_eq_eq_eq_not, Bool.not_true, beq_eq_false_iff_ne, ne_eq]
        omega
      have hlen : 1 + (done ++ [u]).length = 1 + done.length + 1 := by
        simp only [List.length_append, List.length_cons, List.length_nil]
        omega
      have hfc : 1 + fCount (done ++ [u])
          = 1 + fCount done + (if u.filter.isSome then 1 else 0) := by
        rw [fCount_append]
        have : fCount [u] = (if u.filter.isSome then 1 else 0) := by
          unfold fCount
          rw [List.countP_cons]
          simp
        omega
      have hres : (canonSt (done ++ [u]) 1 (1 + fCount us)).filters
          = (canonSt done 1 (1 + fCount us)).filters
            ++ ((match u.filter with
                | some fr => [canonFilter (1 + fCount us + fCount done) (1 + done.length) fr]
                | none => []) ++ []) := by
        rw [canonSt_append done [u] 1 (1 + fCount us)]
        rfl
      have hstate : ({ run2State us done (u :: vs) with
          filters := (run2State us done (u :: vs)).filters.filter
              (fun f => !(f.forwarding_id == 1 + done.length))
            ++ (match u.filter with
                | some fr => [canonFilter (run2State us done (u :: vs)).next_filter_id
                    (1 + done.length) fr]
                | none => [])
          next_filter_id := (run2State us done (u :: vs)).next_filter_id
            + (if u.filter.isSome then 1 else 0) } : Dj.State)
          = run2State us (done ++ [u]) vs := by
        show ({ rules := (canonSt us 1 1).rules
                next_rule_id := 1 + us.length
                filters := (((canonSt (u :: vs) (1 + done.length) (1 + fCount done)).filters
                    ++ (canonSt done 1 (1 + fCount us)).filters).filter
                    (fun f => !(f.forwarding_id == 1 + done.length)))
                  ++ (match u.filter with
                      | some fr => [canonFilter (1 + fCount us + fCount done)
                          (1 + done.length) fr]
                      | none => [])
                next_filter_id := (1 + fCount us + fCount done)
                  + (if u.filter.isSome then 1 else 0) } : Dj.State)
            = run2State us (done ++ [u]) vs
        unfold run2State
        rw [hlen, hfc, hres]
        rw [show (canonSt (u :: vs) (1 + done.length) (1 + fCount done)).filters
            = (match u.filter with
               | some fr => [canonFilter (1 + fCount done) (1 + done.length) fr]
               | none => []) ++ (canonSt vs (1 + done.length + 1)
                  (1 + fCount done + if u.filter.isSome then 1 else 0)).filters from rfl]
        rw [List.filter_append, List.filter_append, hHead, hRest, hB, List.nil_append]
        simp only [List.append_nil, List.append_assoc]
        rw [fCount_append]
        have hfu : fCount [u] = (if u.filter.isSome then 1 else 0) := by
          unfold fCount
          rw [List.countP_cons]
          simp
        rw [hfu]
        congr 1
        omega
      rw [hstate]
      exact ih (done ++ [u]) (by rw [hsplit]; simp)

/-- C2: the claimed idempotence of store_autoforwarding_data fails. On the
input C2bad, whose second email is a substring of the first, the first run
from an empty store leaves one rule (the icontains lookup matches the second
record to the rule created for the first, which is then overwritten), while
the second run leaves two rules: the rule count changes between the first
and the second run, so the final states differ. -/
theorem C2_counterexample :
    ∃ S1 S2,
      store_autoforwarding_data Dj.emptyState C2bad = .ok S1 ∧
      store_autoforwarding_data S1 C2bad = .ok S2 ∧
      S1.rules.length = 1 ∧ S2.rules.length = 2 :=
  ⟨_, _, rfl, rfl, rfl, rfl⟩

/-- C2 (amended): for good inputs — every record email non-empty and no two
record emails case-insensitively containing one another, so the icontains
lookup behaves as an exact-email lookup — both runs from the empty store
succeed, and the second run preserves the rules exactly (count and every
field), the filter count, and every filter field except the backend-assigned
filter identifier (the deleted-and-recreated filters get fresh ids). -/
theorem C2_amended (us : List ImportRecord) (hgood : goodRecords us) :
    ∃ S1 S2,
      store_autoforwarding_data Dj.emptyState us = .ok S1 ∧
      store_autoforwarding_data S1 us = .ok S2 ∧
      S2.rules = S1.rules ∧
      S2.filters.length = S1.filters.length ∧
      S2.filters.map filterContent = S1.filters.map filterContent := by
  obtain ⟨hne, hpw⟩ := hgood
  have h1 : store_autoforwarding_data Dj.emptyState us = .ok (canonSt us 1 1) := by
    have h := run1_general us Dj.emptyState (by decide) hne hpw
      (by intro u hu r hr; simp [Dj.emptyState] at hr)
      (by intro r hr; simp [Dj.emptyState] at hr)
      (by intro f hf; simp [Dj.emptyState] at hf)
    exact h
  have hS1 : run2State us [] us = canonSt us 1 1 := by
    show ({ rules := (canonSt us 1 1).rules
            next_rule_id := 1 + us.length
            filters := (canonSt us 1 1).filters ++ ([] : List Dj.Filter)
            next_filter_id := 1 + fCount us } : Dj.State) = canonSt us 1 1
    rw [List.append_nil, ← canonSt_next_rule us 1 1, ← canonSt_next_filter us 1 1]
  have h2 := run2_general us hne hpw us [] rfl
  rw [hS1] at h2
  refine ⟨canonSt us 1 1, run2State us us [], h1, h2, rfl, ?_, ?_⟩
  · show (canonSt us 1 (1 + fCount us)).filters.length = (canonSt us 1 1).filters.length
    rw [canonSt_filters_length, canonSt_filters_length]
  · exact canonSt_filters_content us 1 (1 + fCount us) 1

/-- C2 (witness): the two-record input C2recs (distinct non-cross-matching
emails, the first record carrying a filter) satisfies goodRecords, and the
amended statement holds for it. -/
theorem C2_amended_witness :
    goodRecords C2recs ∧
    (∃ S1 S2,
      store_autoforwarding_data Dj.emptyState C2recs = .ok S1 ∧
      store_autoforwarding_data S1 C2recs = .ok S2 ∧
      S2.rules = S1.rules ∧
      S2.filters.length = S1.filters.length ∧
      S2.filters.map filterContent = S1.filters.map filterContent) :=
  ⟨by decide, C2_amended C2recs (by decide)⟩
